import Mathlib

/-!
# Verification of the backtesting core (`backtester/backtest.py`, `backtester/metrics.py`)

Shallow embedding of the simulation engine (`Backtester`) and the metric
functions the claims refer to.  Conventions of the embedding:

* Prices, cash, commission and slippage are exact rationals (`ℚ`); the Python
  code uses floats, and this embedding is the usual idealisation of that
  arithmetic.
* Timestamps are natural numbers (`ℕ`): the engine only compares and copies
  them, so any linearly ordered stamp type is faithful.
* Bars carry only `date` and `close`: `Backtester.run` reads `row['close']`
  and the index only; open/high/low/volume are pass-through for collaborators
  and never consumed by the core.
* Signals are integers, exactly as produced by the strategies (`1` = BUY,
  `-1` = SELL, `0` = HOLD); the engine compares with `== 1` / `== -1` and any
  other value falls through as a no-op.
* Python exceptions (pandas `IndexError` from `signals.iloc[i]`, `iloc[0]`,
  `iloc[-1]` on empty series) are modelled with `Except String`; the string
  records which access raised.
* `int(x)` (Python truncation toward zero) is modelled by `pyInt`.
-/

/-- One daily price bar.  Only the index timestamp and the `close` column are
consumed by `Backtester.run`. -/
structure Bar where
  date : ℕ
  close : ℚ
deriving DecidableEq, Repr

/-- The `exit_reason` strings `'signal'`, `'stop_loss'`, `'end_of_data'`. -/
inductive ExitReason where
  | signal : ExitReason
  | stop_loss : ExitReason
  | end_of_data : ExitReason
deriving DecidableEq, Repr

/-- The `Trade` dataclass of `backtest.py`: record of a completed round trip.
`entry_date` is copied from the engine's `self.entry_date` field, which is
`None` between positions, hence the `Option`. -/
structure Trade where
  entry_date : Option ℕ
  exit_date : ℕ
  entry_price : ℚ
  exit_price : ℚ
  shares : ℤ
  pnl : ℚ
  pnl_pct : ℚ
  exit_reason : ExitReason
deriving DecidableEq, Repr

/-- The constructor parameters of `Backtester.__init__`; never mutated. -/
structure Params where
  initial_cash : ℚ
  commission : ℚ
  slippage : ℚ
deriving DecidableEq, Repr

/-- The mutable fields of a `Backtester` instance: exactly the state written
by `run`, `_reset`, `_buy`, `_sell` and `_record_equity`. -/
structure BState where
  cash : ℚ
  position : ℤ
  entry_price : ℚ
  entry_date : Option ℕ
  highest_price : ℚ
  trades : List Trade
  equity_curve : List (ℕ × ℚ)
deriving DecidableEq, Repr

/-- `Backtester._reset`: every mutable field is restored from the constructor
parameters, independent of the previous state. -/
def resetState (p : Params) : BState :=
  { cash := p.initial_cash
    position := 0
    entry_price := 0
    entry_date := none
    highest_price := 0
    trades := []
    equity_curve := [] }

/-- `self._reset()` applied to the incoming mutable state `_s`: the source
assigns all seven mutable fields from the immutable parameters, so the result
does not depend on `_s`. -/
def resetApply (p : Params) (_s : BState) : BState := resetState p

/-- Python `int(x)` on a real value: truncation toward zero. -/
def pyInt (q : ℚ) : ℤ := if 0 ≤ q then ⌊q⌋ else ⌈q⌉

/-- `Backtester._buy`: slippage-adjusted fill, whole-share sizing with
`int(...)`, silent no-op when no share is affordable, otherwise open the
position and seed `highest_price` with the unadjusted signal price. -/
def buy (p : Params) (s : BState) (date : ℕ) (price : ℚ) : BState :=
  let fill_price := price * (1 + p.slippage)
  let available := s.cash - p.commission
  let shares := pyInt (available / fill_price)
  if shares ≤ 0 then s
  else
    { s with
      cash := s.cash - ((shares : ℚ) * fill_price + p.commission)
      position := shares
      entry_price := fill_price
      entry_date := some date
      highest_price := price }

/-- `Backtester._sell`: no-op when flat, otherwise realise the slippage-adjusted
proceeds, append the completed `Trade`, and clear the position fields. -/
def sell (p : Params) (s : BState) (date : ℕ) (price : ℚ) (reason : ExitReason) :
    BState :=
  if s.position ≤ 0 then s
  else
    let fill_price := price * (1 - p.slippage)
    let proceeds := (s.position : ℚ) * fill_price - p.commission
    { s with
      cash := s.cash + proceeds
      trades := s.trades ++
        [{ entry_date := s.entry_date
           exit_date := date
           entry_price := s.entry_price
           exit_price := fill_price
           shares := s.position
           pnl := (fill_price - s.entry_price) * (s.position : ℚ)
           pnl_pct := (fill_price / s.entry_price - 1) * 100
           exit_reason := reason }]
      position := 0
      entry_price := 0
      entry_date := none
      highest_price := 0 }

/-- `Backtester._record_equity`: append `(date, cash + shares × close)`. -/
def recordEquity (s : BState) (date : ℕ) (price : ℚ) : BState :=
  { s with equity_curve := s.equity_curve ++ [(date, s.cash + (s.position : ℚ) * price)] }

/-- The trailing-stop bookkeeping at the top of the bar loop:
`if self.position > 0: self.highest_price = max(self.highest_price, close)`. -/
def stepHighest (s : BState) (close : ℚ) : BState :=
  { s with highest_price := if 0 < s.position then max s.highest_price close else s.highest_price }

/-- The `----- PROCESS SIGNALS -----` block: BUY only when flat, SELL only when
in a position, anything else (HOLD, unknown values, BUY-while-in, SELL-while-flat)
is a no-op. -/
def preSignal (p : Params) (s : BState) (b : Bar) (g : ℤ) : BState :=
  if g = 1 ∧ s.position = 0 then buy p s b.date b.close
  else if g = -1 ∧ 0 < s.position then sell p s b.date b.close .signal
  else s

/-- One bar of the loop body of `Backtester.run`, without the trailing
`_record_equity`: update the trailing high, then either the stop-loss branch
(which pre-empts the signal) or the signal branch.  `u` is
`strategy.should_use_stop_loss()` and `q` is `strategy.stop_loss_pct()`. -/
def stepCore (p : Params) (u : Bool) (q : ℚ) (s : BState) (b : Bar) (g : ℤ) : BState :=
  if 0 < (stepHighest s b.close).position ∧ u = true ∧
      b.close ≤ (stepHighest s b.close).highest_price * (1 - q) then
    sell p (stepHighest s b.close) b.date b.close .stop_loss
  else
    preSignal p (stepHighest s b.close) b g

/-- One full iteration of the bar loop: both the stop-loss branch and the
signal branch end by recording this bar's equity point. -/
def step (p : Params) (u : Bool) (q : ℚ) (s : BState) (b : Bar) (g : ℤ) : BState :=
  recordEquity (stepCore p u q s b g) b.date b.close

/-- The message of the pandas `IndexError` raised by `signals.iloc[i]` when the
signal sequence is shorter than the bar sequence. -/
def signalOutOfRangeMsg : String := "IndexError: iloc on signals out of range"

/-- The bar-by-bar loop of `Backtester.run`.  Signals are consumed positionally
(`signals.iloc[i]`); a missing signal raises mid-loop (partial state is
discarded by the exception), surplus signals are silently ignored. -/
def simLoop (p : Params) (u : Bool) (q : ℚ) :
    BState → List Bar → List ℤ → Except String BState
  | s, [], _ => .ok s
  | _, _ :: _, [] => .error signalOutOfRangeMsg
  | s, b :: bars, g :: sigs => simLoop p u q (step p u q s b g) bars sigs

/-- `STEP 3` of `run`: close any open position at the final bar's close with
`exit_reason='end_of_data'`.  `data['close'].iloc[-1]` on an empty frame would
raise, hence the error branch (unreachable: a position needs at least one bar). -/
def closeEnd (p : Params) (bars : List Bar) (s : BState) : Except String BState :=
  if 0 < s.position then
    match bars.getLast? with
    | some b => .ok (sell p s b.date b.close .end_of_data)
    | none => .error "IndexError: iloc[-1] on empty data"
  else .ok s

/-- `metrics.total_return`: `(iloc[-1] / iloc[0] - 1) * 100`; raises on an
empty series. -/
def totalReturnE (xs : List ℚ) : Except String ℚ :=
  match xs with
  | [] => .error "IndexError: iloc[-1] on empty equity curve"
  | x :: r => .ok ((r.getLastD x / x - 1) * 100)

/-- The benchmark curve of `run`: each close rescaled by
`close / close.iloc[0] * initial_cash`, then `.loc[lo:hi]` label slicing, which
on the (chronologically sorted) benchmark index keeps exactly the stamps in
`[lo, hi]`. -/
def benchCurve (p : Params) (bb : List (ℕ × ℚ)) (b0 : ℕ × ℚ) (lo hi : ℕ) :
    List (ℕ × ℚ) :=
  (bb.map fun dc => (dc.1, dc.2 / b0.2 * p.initial_cash)).filter
    fun dc => decide (lo ≤ dc.1) && decide (dc.1 ≤ hi)

/-- The slice of `BacktestResult` and `calculate_metrics` that the claims
refer to: the final engine state plus the return/benchmark metrics.  The
remaining metrics (volatility, drawdown, ratios, trade statistics) are total
functions of the same data and are embedded separately where a claim needs
them. -/
structure RunResult where
  state : BState
  total_return : ℚ
  benchmark_return : ℚ
  excess_return : ℚ
deriving DecidableEq, Repr

/-- Exception sequencing: a raised exception aborts the rest of the
computation. -/
def exceptBind {α β : Type} : Except String α → (α → Except String β) → Except String β
  | .error e, _ => .error e
  | .ok a, f => f a

/-- A positional access that raises `msg` when the container is empty
(`iloc[0]`, `index[0]`, `index[-1]` on an empty pandas object). -/
def optStage {α β : Type} (msg : String) : Option α → (α → Except String β) → Except String β
  | none, _ => .error msg
  | some a, f => f a

/-- `STEP 4` of `run`: build the benchmark curve (this happens before
`calculate_metrics`, and accesses `benchmark['close'].iloc[0]` and
`equity_series.index[0]`/`[-1]`, each of which raises on an empty series),
then compute `total_return`, `benchmark_return` and `excess_return` exactly as
`calculate_metrics` does. -/
def mkMetrics (p : Params) (s : BState) :
    Option (List (ℕ × ℚ)) → Except String RunResult
  | none =>
    exceptBind (totalReturnE (s.equity_curve.map Prod.snd)) fun tr =>
      .ok { state := s, total_return := tr, benchmark_return := 0, excess_return := 0 }
  | some bb =>
    optStage "IndexError: iloc[0] on empty benchmark" bb.head? fun b0 =>
    optStage "IndexError: index[0] on empty equity curve" s.equity_curve.head? fun e0 =>
    optStage "IndexError: index[-1] on empty equity curve" s.equity_curve.getLast? fun e1 =>
    exceptBind (totalReturnE (s.equity_curve.map Prod.snd)) fun tr =>
    exceptBind (totalReturnE ((benchCurve p bb b0 e0.1 e1.1).map Prod.snd)) fun br =>
      .ok { state := s, total_return := tr, benchmark_return := br,
            excess_return := tr - br }

/-- Exception propagation out of the metrics stage of `run`. -/
def runAfterClose (p : Params) (bench : Option (List (ℕ × ℚ))) :
    Except String BState → Except String RunResult
  | .error e => .error e
  | .ok s2 => mkMetrics p s2 bench

/-- Exception propagation out of the bar loop of `run`, followed by the
end-of-data close and the metrics stage. -/
def runAfterLoop (p : Params) (bars : List Bar) (bench : Option (List (ℕ × ℚ))) :
    Except String BState → Except String RunResult
  | .error e => .error e
  | .ok sl => runAfterClose p bench (closeEnd p bars sl)

/-- `Backtester.run`: reset the mutable state (`sIn` is the state the instance
carries into the call; `_reset` overwrites all of it), loop over the bars,
force-close at end of data, then compute the metrics; any exception raised at
one stage aborts the stages after it. -/
def run (p : Params) (sIn : BState) (u : Bool) (q : ℚ) (sigs : List ℤ)
    (bars : List Bar) (bench : Option (List (ℕ × ℚ))) : Except String RunResult :=
  runAfterLoop p bars bench (simLoop p u q (resetApply p sIn) bars sigs)

/-- The sequence of engine states reached during the loop (initial state
first, then the state after each processed bar). -/
def simTrace (p : Params) (u : Bool) (q : ℚ) (sigs : List ℤ) (bars : List Bar) :
    List BState :=
  List.scanl (fun s bg => step p u q s bg.1 bg.2) (resetState p) (bars.zip sigs)

/-- Chronological compatibility of two consecutive ledger entries: the later
trade has a recorded entry date and it is not before the earlier trade's exit. -/
def tradeChron (a b : Trade) : Prop :=
  b.entry_date.isSome = true ∧ a.exit_date ≤ b.entry_date.getD 0

instance (a b : Trade) : Decidable (tradeChron a b) := by
  unfold tradeChron; infer_instance

/-- The position-book invariant: never a negative share count, and shares are
held exactly when an entry date is recorded (a position is open). -/
def PosInv (s : BState) : Prop :=
  0 ≤ s.position ∧ (0 < s.position ↔ s.entry_date.isSome = true)

instance (s : BState) : Decidable (PosInv s) := by
  unfold PosInv; infer_instance

/-- Exit date of the most recent ledger entry (if any) is at most `d`. -/
def lastExitLE (ts : List Trade) (d : ℕ) : Prop :=
  ∀ t, ts.getLast? = some t → t.exit_date ≤ d

/-- Loop invariant tying the ledger to the engine state: all recorded trades
have entry dates and are chronologically chained; an open position entered at
`e` postdates every recorded exit; when flat, every recorded exit is at most
the date `d` of the next unprocessed bar. -/
def LedgerInv (s : BState) (d : ℕ) : Prop :=
  (∀ t ∈ s.trades, t.entry_date.isSome = true) ∧
  List.Chain' tradeChron s.trades ∧
  (0 < s.position → ∃ e, s.entry_date = some e ∧ lastExitLE s.trades e) ∧
  (s.position ≤ 0 → lastExitLE s.trades d)

/-- `equity_curve.pct_change().dropna()`: bar-over-bar fractional change, the
undefined first entry dropped.  Faithful to the pandas computation whenever no
equity value is zero (a zero denominator produces non-finite floats in the
source; rational division by zero is not a model of that, so every theorem
using `pctChange` constrains the curve's values away from zero where it
matters). -/
def pctChange (xs : List ℚ) : List ℚ :=
  List.zipWith (fun a b => b / a - 1) xs xs.tail

/-- `Series.mean()` (defined value for non-empty series). -/
def listMean (xs : List ℚ) : ℚ := xs.sum / (xs.length : ℚ)

/-- The square of the pandas sample standard deviation `Series.std()`
(`ddof = 1`): `none` models the `NaN` that pandas returns for fewer than two
observations.  The code's `std` is `√(sampleVar ·)`, so `std == 0` exactly when
`sampleVar = some 0` and `std` is `NaN` exactly when `sampleVar = none`. -/
def sampleVar (xs : List ℚ) : Option ℚ :=
  if xs.length < 2 then none
  else some ((xs.map fun x => (x - listMean xs) ^ 2).sum / ((xs.length : ℚ) - 1))

/-- The value returned by `sharpe_ratio` / `sortino_ratio`, kept symbolic in
the one branch whose float value involves a square root:
* `nan` — a `NaN` propagated from a degenerate standard deviation,
* `inf` — the `np.inf` of a no-downside Sortino,
* `zero` — the guarded early `return 0.0`,
* `val num varAnn` — the finite value `num / (√varAnn · √252)` with
  `varAnn ≠ 0`. -/
inductive RatioVal where
  | nan : RatioVal
  | inf : RatioVal
  | zero : RatioVal
  | val : ℚ → ℚ → RatioVal
deriving DecidableEq, Repr

/-- `metrics.sharpe_ratio`: annualised mean over annualised standard
deviation; `0.0` when the volatility compares equal to zero, `NaN` when the
standard deviation itself is `NaN` (fewer than two returns), since `NaN == 0`
is false and the division then yields `NaN`. -/
def sharpe (returns : List ℚ) (risk_free_rate : ℚ) : RatioVal :=
  match sampleVar returns with
  | none => .nan
  | some v =>
    if v = 0 then .zero
    else .val (listMean returns * 252 - risk_free_rate) v

/-- `metrics.sortino_ratio`: `np.inf` when there are no negative returns
(checked first), otherwise the same shape as `sharpe` over the negative
returns only (one single negative return gives a `NaN` sample deviation). -/
def sortino (returns : List ℚ) (risk_free_rate : ℚ) : RatioVal :=
  if (returns.filter fun x => decide (x < 0)).length = 0 then .inf
  else
    match sampleVar (returns.filter fun x => decide (x < 0)) with
    | none => .nan
    | some v =>
      if v = 0 then .zero
      else .val (listMean returns * 252 - risk_free_rate) v

section helperlemmas

variable {p : Params} {s : BState} {u : Bool} {q : ℚ}

lemma sell_curve (p : Params) (s : BState) (d : ℕ) (c : ℚ) (r : ExitReason) :
    (sell p s d c r).equity_curve = s.equity_curve := by
  unfold sell; split <;> rfl

lemma buy_curve (p : Params) (s : BState) (d : ℕ) (c : ℚ) :
    (buy p s d c).equity_curve = s.equity_curve := by
  simp only [buy]; split <;> rfl

lemma stepHighest_curve (s : BState) (c : ℚ) :
    (stepHighest s c).equity_curve = s.equity_curve := rfl

lemma sell_of_pos (p : Params) {s : BState} (d : ℕ) (c : ℚ) (r : ExitReason)
    (h : 0 < s.position) :
    sell p s d c r =
      { s with
        cash := s.cash + ((s.position : ℚ) * (c * (1 - p.slippage)) - p.commission)
        trades := s.trades ++
          [{ entry_date := s.entry_date
             exit_date := d
             entry_price := s.entry_price
             exit_price := c * (1 - p.slippage)
             shares := s.position
             pnl := (c * (1 - p.slippage) - s.entry_price) * (s.position : ℚ)
             pnl_pct := (c * (1 - p.slippage) / s.entry_price - 1) * 100
             exit_reason := r }]
        position := 0
        entry_price := 0
        entry_date := none
        highest_price := 0 } := by
  unfold sell; rw [if_neg (not_le.mpr h)]

lemma sell_of_nonpos (p : Params) {s : BState} (d : ℕ) (c : ℚ) (r : ExitReason)
    (h : s.position ≤ 0) : sell p s d c r = s := by
  unfold sell; rw [if_pos h]

lemma stepCore_curve (p : Params) (u : Bool) (q : ℚ) (s : BState) (b : Bar) (g : ℤ) :
    (stepCore p u q s b g).equity_curve = s.equity_curve := by
  unfold stepCore preSignal
  split
  · rw [sell_curve, stepHighest_curve]
  · split
    · rw [buy_curve, stepHighest_curve]
    · split
      · rw [sell_curve, stepHighest_curve]
      · rfl

lemma step_curve (p : Params) (u : Bool) (q : ℚ) (s : BState) (b : Bar) (g : ℤ) :
    (step p u q s b g).equity_curve =
      s.equity_curve ++
        [(b.date, (step p u q s b g).cash + ((step p u q s b g).position : ℚ) * b.close)] := by
  have h1 : (step p u q s b g).cash = (stepCore p u q s b g).cash := rfl
  have h2 : (step p u q s b g).position = (stepCore p u q s b g).position := rfl
  rw [h1, h2]
  show (recordEquity (stepCore p u q s b g) b.date b.close).equity_curve = _
  simp only [recordEquity]
  rw [stepCore_curve]

lemma simLoop_ok_nil {sigs : List ℤ} {sl : BState} :
    simLoop p u q s [] sigs = .ok sl ↔ sl = s := by
  unfold simLoop; exact ⟨fun h => by injection h with h; exact h.symm, fun h => by rw [h]⟩

lemma simLoop_cons {b : Bar} {bars : List Bar} {g : ℤ} {sigs : List ℤ} :
    simLoop p u q s (b :: bars) (g :: sigs) = simLoop p u q (step p u q s b g) bars sigs := by
  rfl

lemma simLoop_nil_sig {b : Bar} {bars : List Bar} :
    simLoop p u q s (b :: bars) [] = .error signalOutOfRangeMsg := by
  rfl

/-- Invariant transport along the simulation loop. -/
lemma simLoop_invariant (p : Params) (u : Bool) (q : ℚ) (P : BState → Prop)
    (hstep : ∀ s b g, P s → P (step p u q s b g)) :
    ∀ (bars : List Bar) (sigs : List ℤ) (s sl : BState),
      P s → simLoop p u q s bars sigs = .ok sl → P sl := by
  intro bars
  induction bars with
  | nil => intro sigs s sl hP h; rw [simLoop_ok_nil.mp h]; exact hP
  | cons b bars ih =>
    intro sigs s sl hP h
    cases sigs with
    | nil => exact absurd h (by rw [simLoop_nil_sig]; intro h; cases h)
    | cons g gs => exact ih gs _ sl (hstep s b g hP) h

lemma simLoop_ok_length :
    ∀ (bars : List Bar) (sigs : List ℤ) (s sl : BState),
      simLoop p u q s bars sigs = .ok sl →
      sl.equity_curve.length = s.equity_curve.length + bars.length := by
  intro bars
  induction bars with
  | nil => intro sigs s sl h; rw [simLoop_ok_nil.mp h]; simp
  | cons b bars ih =>
    intro sigs s sl h
    cases sigs with
    | nil => exact absurd h (by rw [simLoop_nil_sig]; intro h; cases h)
    | cons g gs =>
      rw [simLoop_cons] at h
      have := ih gs _ sl h
      rw [this, step_curve]
      simp; omega

lemma simLoop_ok_last :
    ∀ (bars : List Bar) (sigs : List ℤ) (s sl : BState) (b : Bar),
      simLoop p u q s bars sigs = .ok sl → bars.getLast? = some b →
      sl.equity_curve.getLast? = some (b.date, sl.cash + (sl.position : ℚ) * b.close) := by
  intro bars
  induction bars with
  | nil => intro sigs s sl b _ hb; cases hb
  | cons b0 bars ih =>
    intro sigs s sl b h hb
    cases sigs with
    | nil => exact absurd h (by rw [simLoop_nil_sig]; intro h; cases h)
    | cons g gs =>
      rw [simLoop_cons] at h
      cases bars with
      | nil =>
        rw [simLoop_ok_nil.mp h]
        simp only [List.getLast?_singleton, Option.some.injEq] at hb
        subst hb
        rw [step_curve]
        simp
      | cons b1 bars1 =>
        rw [List.getLast?_cons_cons] at hb
        exact ih gs _ sl b h hb

lemma simLoop_ok_of_le :
    ∀ (bars : List Bar) (sigs : List ℤ) (s : BState), bars.length ≤ sigs.length →
      ∃ sl, simLoop p u q s bars sigs = .ok sl := by
  intro bars
  induction bars with
  | nil => intro sigs s _; exact ⟨s, rfl⟩
  | cons b bars ih =>
    intro sigs s hlen
    cases sigs with
    | nil => simp at hlen
    | cons g gs =>
      rw [simLoop_cons]
      exact ih gs _ (by simpa using hlen)

lemma simLoop_err_of_lt :
    ∀ (bars : List Bar) (sigs : List ℤ) (s : BState), sigs.length < bars.length →
      simLoop p u q s bars sigs = .error signalOutOfRangeMsg := by
  intro bars
  induction bars with
  | nil => intro sigs s h; simp at h
  | cons b bars ih =>
    intro sigs s hlen
    cases sigs with
    | nil => rfl
    | cons g gs =>
      rw [simLoop_cons]
      exact ih gs _ (by simpa using hlen)

lemma simLoop_ok_foldl :
    ∀ (bars : List Bar) (sigs : List ℤ) (s sl : BState),
      simLoop p u q s bars sigs = .ok sl →
      sl = List.foldl (fun t bg => step p u q t bg.1 bg.2) s (bars.zip sigs) := by
  intro bars
  induction bars with
  | nil => intro sigs s sl h; rw [simLoop_ok_nil.mp h]; simp
  | cons b bars ih =>
    intro sigs s sl h
    cases sigs with
    | nil => exact absurd h (by rw [simLoop_nil_sig]; intro h; cases h)
    | cons g gs => exact ih gs _ sl h

end helperlemmas

section invariantlemmas

variable {p : Params} {s : BState} {u : Bool} {q : ℚ} {b : Bar} {g : ℤ} {d : ℕ}

lemma posInv_record (t : BState) (d : ℕ) (c : ℚ) :
    PosInv (recordEquity t d c) ↔ PosInv t := by
  simp [PosInv, recordEquity]

lemma posInv_stepHighest (t : BState) (c : ℚ) :
    PosInv (stepHighest t c) ↔ PosInv t := by
  simp [PosInv, stepHighest]

/-- The stop-loss branch, the signal branch and the equity recording all
preserve the position-book invariant. -/
lemma step_posInv (h : PosInv s) : PosInv (step p u q s b g) := by
  rw [show step p u q s b g = recordEquity (stepCore p u q s b g) b.date b.close from rfl,
    posInv_record]
  unfold stepCore preSignal
  split
  · rename_i hc
    rw [sell_of_pos _ _ _ _ hc.1]
    simp [PosInv]
  · split
    · simp only [buy]
      split
      · rw [posInv_stepHighest]; exact h
      · rename_i hsh
        push_neg at hsh
        exact ⟨le_of_lt hsh, by simp [hsh]⟩
    · split
      · rename_i _ hs
        rw [sell_of_pos _ _ _ _ hs.2]
        simp [PosInv]
      · rw [posInv_stepHighest]; exact h

/-- While a position is open, a bar either leaves it untouched (same share
count, same entry) or closes it; it never replaces it with a new one. -/
lemma step_pyramiding (h : 0 < s.position) :
    ((step p u q s b g).position = s.position ∧
      (step p u q s b g).entry_date = s.entry_date) ∨
    (step p u q s b g).position = 0 := by
  have e1 : (step p u q s b g).position = (stepCore p u q s b g).position := rfl
  have e2 : (step p u q s b g).entry_date = (stepCore p u q s b g).entry_date := rfl
  rw [e1, e2]
  unfold stepCore preSignal
  split
  · rename_i hc
    right; rw [sell_of_pos _ _ _ _ hc.1]
  · split
    · rename_i hb
      have hb2 : s.position = 0 := hb.2
      exact absurd hb2 (by omega)
    · split
      · rename_i _ hs
        right; rw [sell_of_pos _ _ _ _ hs.2]
      · left; exact ⟨rfl, rfl⟩

lemma lastExitLE_mono {ts : List Trade} {d d' : ℕ} (h : lastExitLE ts d) (hd : d ≤ d') :
    lastExitLE ts d' :=
  fun t ht => le_trans (h t ht) hd

lemma lastExitLE_concat {ts : List Trade} {t : Trade} {d : ℕ} (h : t.exit_date ≤ d) :
    lastExitLE (ts ++ [t]) d := by
  intro t' ht'
  rw [List.getLast?_concat] at ht'
  injection ht' with ht'
  rw [← ht']
  exact h

lemma chron_concat {ts : List Trade} {t : Trade} (hc : List.Chain' tradeChron ts)
    (hlast : ∀ x, ts.getLast? = some x → tradeChron x t) :
    List.Chain' tradeChron (ts ++ [t]) := by
  rw [List.chain'_append]
  refine ⟨hc, List.chain'_singleton t, ?_⟩
  intro x hx y hy
  simp only [List.head?_cons, Option.mem_def, Option.some.injEq] at hy
  subst hy
  exact hlast x hx

lemma ledgerInv_record (t : BState) (d0 : ℕ) (c : ℚ) (d1 : ℕ) :
    LedgerInv (recordEquity t d0 c) d1 ↔ LedgerInv t d1 := by
  simp [LedgerInv, recordEquity]

lemma ledgerInv_stepHighest (t : BState) (c : ℚ) (d1 : ℕ) :
    LedgerInv (stepHighest t c) d1 ↔ LedgerInv t d1 := by
  simp [LedgerInv, stepHighest]

/-- One bar preserves the ledger invariant, advancing the date bound to the
bar's own date. -/
lemma step_ledger (hd : d ≤ b.date) (h : LedgerInv s d) :
    LedgerInv (step p u q s b g) b.date := by
  rw [show step p u q s b g = recordEquity (stepCore p u q s b g) b.date b.close from rfl,
    ledgerInv_record]
  obtain ⟨h1, h2, h3, h4⟩ := h
  unfold stepCore preSignal
  split
  · rename_i hc
    obtain ⟨e, he, hle⟩ := h3 hc.1
    rw [sell_of_pos _ _ _ _ hc.1]
    refine ⟨?_, ?_, ?_, ?_⟩
    · intro t ht
      rcases List.mem_append.mp ht with ht | ht
      · exact h1 t ht
      · rcases List.mem_singleton.mp ht with rfl
        show (s.entry_date).isSome = true
        rw [he]; rfl
    · refine chron_concat h2 ?_
      intro x hx
      refine ⟨?_, ?_⟩
      · show (s.entry_date).isSome = true
        rw [he]; rfl
      · show x.exit_date ≤ (s.entry_date).getD 0
        rw [he]
        exact hle x hx
    · intro h0; exact absurd h0 (by norm_num)
    · intro _; exact lastExitLE_concat (le_refl b.date)
  · split
    · rename_i hb
      have hp0 : s.position = 0 := hb.2
      simp only [buy]
      split
      · rw [ledgerInv_stepHighest]
        exact ⟨h1, h2, h3, fun h0 => lastExitLE_mono (h4 h0) hd⟩
      · rename_i hsh
        push_neg at hsh
        refine ⟨h1, h2, ?_, ?_⟩
        · intro _
          exact ⟨b.date, rfl, lastExitLE_mono (h4 (le_of_eq hp0)) hd⟩
        · intro hle0; exact absurd (lt_of_lt_of_le hsh hle0) (lt_irrefl 0)
    · split
      · rename_i _ hs
        obtain ⟨e, he, hle⟩ := h3 hs.2
        rw [sell_of_pos _ _ _ _ hs.2]
        refine ⟨?_, ?_, ?_, ?_⟩
        · intro t ht
          rcases List.mem_append.mp ht with ht | ht
          · exact h1 t ht
          · rcases List.mem_singleton.mp ht with rfl
            show (s.entry_date).isSome = true
            rw [he]; rfl
        · refine chron_concat h2 ?_
          intro x hx
          refine ⟨?_, ?_⟩
          · show (s.entry_date).isSome = true
            rw [he]; rfl
          · show x.exit_date ≤ (s.entry_date).getD 0
            rw [he]
            exact hle x hx
        · intro h0; exact absurd h0 (by norm_num)
        · intro _; exact lastExitLE_concat (le_refl b.date)
      · rw [ledgerInv_stepHighest]
        exact ⟨h1, h2, h3, fun h0 => lastExitLE_mono (h4 h0) hd⟩

/-- Ledger invariant transported along the whole loop, for chronologically
sorted bars. -/
lemma simLoop_ledger :
    ∀ (bars : List Bar) (sigs : List ℤ) (s sl : BState) (d : ℕ),
      (∀ b ∈ bars, d ≤ b.date) →
      List.Pairwise (fun a b : Bar => a.date ≤ b.date) bars →
      LedgerInv s d → simLoop p u q s bars sigs = .ok sl →
      ∃ d', LedgerInv sl d' := by
  intro bars
  induction bars with
  | nil => intro sigs s sl d _ _ h hloop; exact ⟨d, by rw [simLoop_ok_nil.mp hloop]; exact h⟩
  | cons b bars ih =>
    intro sigs s sl d hmem hpw h hloop
    cases sigs with
    | nil => exact absurd hloop (by rw [simLoop_nil_sig]; intro h'; cases h')
    | cons g gs =>
      rw [simLoop_cons] at hloop
      rcases List.pairwise_cons.mp hpw with ⟨hb, hpw'⟩
      exact ih gs _ sl b.date hb hpw'
        (step_ledger (hmem b (List.mem_cons_self b bars)) h) hloop

end invariantlemmas

section morelemmas

variable {p : Params} {s : BState} {u : Bool} {q : ℚ} {b : Bar} {g : ℤ}
variable {sigs : List ℤ} {bars : List Bar}

lemma scanl_head {α β : Type} (f : β → α → β) (s : β) (l : List α) :
    (List.scanl f s l).head? = some s := by
  cases l <;> rfl

lemma scanl_all {α β : Type} (f : β → α → β) (P : β → Prop)
    (hf : ∀ s a, P s → P (f s a)) :
    ∀ (l : List α) (s : β), P s → ∀ x ∈ List.scanl f s l, P x := by
  intro l
  induction l with
  | nil => intro s hP x hx; simp [List.scanl] at hx; rw [hx]; exact hP
  | cons a l ih =>
    intro s hP x hx
    simp only [List.scanl] at hx
    rcases List.mem_cons.mp hx with rfl | hx
    · exact hP
    · exact ih (f s a) (hf s a hP) x hx

lemma chain'_scanl {α β : Type} (f : β → α → β) (R : β → β → Prop)
    (hf : ∀ s a, R s (f s a)) :
    ∀ (l : List α) (s : β), List.Chain' R (List.scanl f s l) := by
  intro l
  induction l with
  | nil => intro s; simp [List.scanl]
  | cons a l ih =>
    intro s
    simp only [List.scanl]
    rw [List.chain'_cons']
    refine ⟨?_, ih (f s a)⟩
    intro y hy
    rw [Option.mem_def, scanl_head] at hy
    injection hy with hy
    rw [← hy]
    exact hf s a

lemma getLast?_scanl {α β : Type} (f : β → α → β) :
    ∀ (l : List α) (s : β), (List.scanl f s l).getLast? = some (List.foldl f s l) := by
  intro l
  induction l with
  | nil => intro s; rfl
  | cons a l ih =>
    intro s
    simp only [List.scanl, List.foldl]
    rcases hl : List.scanl f (f s a) l with _ | ⟨y, ys⟩
    · exact absurd hl (by cases l <;> simp [List.scanl])
    · rw [List.getLast?_cons_cons, ← hl]
      exact ih (f s a)

lemma stepHighest_of_flat {c : ℚ} (h : s.position = 0) : stepHighest s c = s := by
  unfold stepHighest
  rw [if_neg (by omega)]

lemma step_hold (h : s.position = 0) :
    step p u q s b 0 = recordEquity s b.date b.close := by
  unfold step stepCore preSignal
  rw [stepHighest_of_flat h]
  rw [if_neg (by simp [h]), if_neg (by norm_num), if_neg (by norm_num)]

lemma simLoop_hold :
    ∀ (bars : List Bar) (sigs : List ℤ) (s sl : BState),
      (∀ g ∈ sigs, g = 0) → s.position = 0 →
      simLoop p u q s bars sigs = .ok sl →
      sl.cash = s.cash ∧ sl.position = 0 ∧ sl.trades = s.trades ∧
        (∀ pt ∈ sl.equity_curve, pt ∈ s.equity_curve ∨ pt.2 = s.cash) := by
  intro bars
  induction bars with
  | nil =>
    intro sigs s sl _ h0 hloop
    rw [simLoop_ok_nil.mp hloop]
    exact ⟨rfl, h0, rfl, fun pt hpt => Or.inl hpt⟩
  | cons b bars ih =>
    intro sigs s sl hsig h0 hloop
    cases sigs with
    | nil => exact absurd hloop (by rw [simLoop_nil_sig]; intro h'; cases h')
    | cons g gs =>
      have hg : g = 0 := hsig g (List.mem_cons_self g gs)
      subst hg
      rw [simLoop_cons, step_hold h0] at hloop
      have hrec_pos : (recordEquity s b.date b.close).position = s.position := rfl
      obtain ⟨hc, hp, ht, hcur⟩ :=
        ih gs _ sl (fun g' hg' => hsig g' (List.mem_cons_of_mem _ hg'))
          (by rw [hrec_pos]; exact h0) hloop
      refine ⟨hc, hp, ht, ?_⟩
      intro pt hpt
      rcases hcur pt hpt with hm | hv
      · have hm' : pt ∈ s.equity_curve ++ [(b.date, s.cash + (s.position : ℚ) * b.close)] := hm
        rcases List.mem_append.mp hm' with h' | h'
        · exact Or.inl h'
        · rcases List.mem_singleton.mp h' with rfl
          right
          show s.cash + (s.position : ℚ) * b.close = s.cash
          rw [h0]
          norm_num
      · exact Or.inr hv

lemma closeEnd_ok_curve {s2 : BState} (h : closeEnd p bars s = .ok s2) :
    s2.equity_curve = s.equity_curve := by
  unfold closeEnd at h
  split at h
  · rcases hb : bars.getLast? with _ | b0 <;> rw [hb] at h
    · cases h
    · injection h with h; rw [← h, sell_curve]
  · injection h with h; rw [← h]

lemma closeEnd_of_pos {b0 : Bar} (hpos : 0 < s.position) (hb : bars.getLast? = some b0) :
    closeEnd p bars s = .ok (sell p s b0.date b0.close .end_of_data) := by
  unfold closeEnd
  rw [if_pos hpos, hb]

lemma closeEnd_of_nonpos (h : ¬ 0 < s.position) : closeEnd p bars s = .ok s := by
  unfold closeEnd
  rw [if_neg h]

lemma closeEnd_ok_position {s2 : BState} (hinv : PosInv s) (h : closeEnd p bars s = .ok s2) :
    s2.position = 0 := by
  unfold closeEnd at h
  split at h
  · rename_i hpos
    rcases hb : bars.getLast? with _ | b0 <;> rw [hb] at h
    · cases h
    · injection h with h
      rw [← h]
      rw [sell_of_pos _ _ _ _ hpos]
  · rename_i hpos
    injection h with h
    rw [← h]
    have := hinv.1
    omega

lemma mkMetrics_none_ok {r : RunResult} (h : mkMetrics p s none = .ok r) :
    r.state = s ∧ totalReturnE (s.equity_curve.map Prod.snd) = .ok r.total_return ∧
      r.benchmark_return = 0 ∧ r.excess_return = 0 := by
  simp only [mkMetrics] at h
  rcases htr : totalReturnE (s.equity_curve.map Prod.snd) with e | tr <;> rw [htr] at h <;>
    simp only [exceptBind] at h
  · exact Except.noConfusion h
  · injection h with h
    rw [← h]
    exact ⟨rfl, rfl, rfl, rfl⟩

lemma mkMetrics_some_ok {bb : List (ℕ × ℚ)} {r : RunResult} {b0 e0 e1 : ℕ × ℚ}
    (h : mkMetrics p s (some bb) = .ok r) (hb0 : bb.head? = some b0)
    (he0 : s.equity_curve.head? = some e0) (he1 : s.equity_curve.getLast? = some e1) :
    r.state = s ∧ totalReturnE (s.equity_curve.map Prod.snd) = .ok r.total_return ∧
      totalReturnE ((benchCurve p bb b0 e0.1 e1.1).map Prod.snd) = .ok r.benchmark_return ∧
      r.excess_return = r.total_return - r.benchmark_return := by
  simp only [mkMetrics] at h
  rw [hb0] at h
  simp only [optStage] at h
  rw [he0] at h
  simp only [optStage] at h
  rw [he1] at h
  simp only [optStage] at h
  rcases htr : totalReturnE (s.equity_curve.map Prod.snd) with e | tr <;> rw [htr] at h <;>
    simp only [exceptBind] at h
  · exact Except.noConfusion h
  · rcases hbr : totalReturnE ((benchCurve p bb b0 e0.1 e1.1).map Prod.snd) with e | br <;>
      rw [hbr] at h <;> simp only [exceptBind] at h
    · exact Except.noConfusion h
    · injection h with h
      rw [← h]
      exact ⟨rfl, rfl, rfl, rfl⟩

lemma mkMetrics_ok_state {bench : Option (List (ℕ × ℚ))} {r : RunResult}
    (h : mkMetrics p s bench = .ok r) :
    r.state = s ∧ totalReturnE (s.equity_curve.map Prod.snd) = .ok r.total_return := by
  cases bench with
  | none =>
    have h' := mkMetrics_none_ok h
    exact ⟨h'.1, h'.2.1⟩
  | some bb =>
    simp only [mkMetrics] at h
    rcases hb0 : bb.head? with _ | b0 <;> rw [hb0] at h <;> simp only [optStage] at h
    · exact Except.noConfusion h
    · rcases he0 : s.equity_curve.head? with _ | e0 <;> rw [he0] at h <;>
        simp only [optStage] at h
      · exact Except.noConfusion h
      · rcases he1 : s.equity_curve.getLast? with _ | e1 <;> rw [he1] at h <;>
          simp only [optStage] at h
        · exact Except.noConfusion h
        · rcases htr : totalReturnE (s.equity_curve.map Prod.snd) with e | tr <;>
            rw [htr] at h <;> simp only [exceptBind] at h
          · exact Except.noConfusion h
          · rcases hbr : totalReturnE ((benchCurve p bb b0 e0.1 e1.1).map Prod.snd) with e | br <;>
              rw [hbr] at h <;> simp only [exceptBind] at h
            · exact Except.noConfusion h
            · injection h with h
              rw [← h]
              exact ⟨rfl, rfl⟩

/-- The end-of-data close keeps the ledger chronologically consistent. -/
lemma closeEnd_ledger {d : ℕ} {s2 : BState} (h : LedgerInv s d)
    (hce : closeEnd p bars s = .ok s2) :
    (∀ t ∈ s2.trades, t.entry_date.isSome = true) ∧ List.Chain' tradeChron s2.trades := by
  obtain ⟨h1, h2, h3, _⟩ := h
  unfold closeEnd at hce
  split at hce
  · rename_i hpos
    rcases hb : bars.getLast? with _ | b0 <;> rw [hb] at hce
    · exact Except.noConfusion hce
    · injection hce with hce
      rw [← hce, sell_of_pos _ _ _ _ hpos]
      obtain ⟨e, he, hle⟩ := h3 hpos
      constructor
      · intro t ht
        rcases List.mem_append.mp ht with ht | ht
        · exact h1 t ht
        · rcases List.mem_singleton.mp ht with rfl
          show s.entry_date.isSome = true
          rw [he]; rfl
      · refine chron_concat h2 ?_
        intro x hx
        refine ⟨?_, ?_⟩
        · show s.entry_date.isSome = true
          rw [he]; rfl
        · show x.exit_date ≤ s.entry_date.getD 0
          rw [he]
          exact hle x hx
  · injection hce with hce
    rw [← hce]
    exact ⟨h1, h2⟩

lemma run_ok_elim {sIn : BState} {bench : Option (List (ℕ × ℚ))} {r : RunResult}
    (h : run p sIn u q sigs bars bench = .ok r) :
    ∃ sl s2, simLoop p u q (resetState p) bars sigs = .ok sl ∧
      closeEnd p bars sl = .ok s2 ∧ mkMetrics p s2 bench = .ok r := by
  unfold run resetApply at h
  rcases hsl : simLoop p u q (resetState p) bars sigs with e | sl <;> rw [hsl] at h
  · simp only [runAfterLoop] at h
    exact Except.noConfusion h
  · simp only [runAfterLoop] at h
    rcases hce : closeEnd p bars sl with e | s2 <;> rw [hce] at h
    · simp only [runAfterClose] at h
      exact Except.noConfusion h
    · simp only [runAfterClose] at h
      exact ⟨sl, s2, rfl, hce, h⟩

lemma run_ok_of {sIn : BState} (hne : bars ≠ []) (hlen : bars.length ≤ sigs.length) :
    ∃ r, run p sIn u q sigs bars none = .ok r := by
  obtain ⟨sl, hsl⟩ := simLoop_ok_of_le bars sigs (resetState p) hlen
  unfold run resetApply
  rw [hsl]
  simp only [runAfterLoop]
  have hcurvelen : sl.equity_curve.length = bars.length := by
    have := simLoop_ok_length bars sigs _ sl hsl
    simpa [resetState] using this
  obtain ⟨s2, hce⟩ : ∃ s2, closeEnd p bars sl = .ok s2 := by
    unfold closeEnd
    split
    · rcases hb : bars.getLast? with _ | b0
      · exact absurd (List.getLast?_eq_none_iff.mp hb) hne
      · exact ⟨_, rfl⟩
    · exact ⟨sl, rfl⟩
  rw [hce]
  simp only [runAfterClose]
  have hcurve2 : s2.equity_curve = sl.equity_curve := closeEnd_ok_curve hce
  simp only [mkMetrics]
  rcases hcv : s2.equity_curve.map Prod.snd with _ | ⟨x, xs⟩
  · exfalso
    have h0 : s2.equity_curve = [] := List.map_eq_nil_iff.mp hcv
    rw [hcurve2] at h0
    rw [h0] at hcurvelen
    exact hne (List.length_eq_zero.mp hcurvelen.symm)
  · exact ⟨_, rfl⟩

lemma pyInt_nonpos_iff (r : ℚ) : pyInt r ≤ 0 ↔ ⌊r⌋ ≤ 0 := by
  unfold pyInt
  split
  · exact Iff.rfl
  · rename_i h
    push_neg at h
    apply iff_of_true
    · exact Int.ceil_le.mpr (by exact_mod_cast le_of_lt h)
    · calc ⌊r⌋ ≤ ⌊(0:ℚ)⌋ := Int.floor_le_floor (le_of_lt h)
        _ = 0 := Int.floor_zero

lemma pyInt_of_floor_pos {r : ℚ} (h : 0 < ⌊r⌋) : pyInt r = ⌊r⌋ := by
  have h1 : ((1:ℤ):ℚ) ≤ r := Int.le_floor.mp h
  unfold pyInt
  rw [if_pos (le_trans (by norm_num) h1)]

lemma zipWith_replicate_self (f : ℚ → ℚ → ℚ) (c : ℚ) :
    ∀ m : ℕ, List.zipWith f (List.replicate (m + 1) c) (List.replicate m c) =
      List.replicate m (f c c) := by
  intro m
  induction m with
  | zero => rfl
  | succ k ih =>
    show List.zipWith f (c :: List.replicate (k + 1) c) (c :: List.replicate k c) = _
    rw [List.zipWith_cons_cons, ih]
    rfl

lemma pctChange_replicate {c : ℚ} (hc : c ≠ 0) (n : ℕ) :
    pctChange (List.replicate n c) = List.replicate (n - 1) 0 := by
  unfold pctChange
  rw [List.tail_replicate]
  cases n with
  | zero => rfl
  | succ k =>
    simp only [Nat.succ_sub_one]
    rw [zipWith_replicate_self]
    congr 1
    rw [div_self hc]
    ring

lemma sampleVar_replicate_zero {m : ℕ} (h : 2 ≤ m) :
    sampleVar (List.replicate m (0:ℚ)) = some 0 := by
  unfold sampleVar
  rw [if_neg (by simp; omega)]
  congr 1
  simp [listMean, List.map_replicate, List.sum_replicate]

lemma sampleVar_length {xs : List ℚ} {v : ℚ} (h : sampleVar xs = some v) :
    2 ≤ xs.length := by
  unfold sampleVar at h
  split at h
  · cases h
  · rename_i h'; omega

end morelemmas

/-! ## Claim theorems -/

/-- C2: at a bar where a position is open and the strategy requests stop-loss
protection, if `close ≤ highest_price_since_entry × (1 − stop_loss_pct)` (with
the trailing high already updated by this bar's close), the engine closes the
position this bar with exit_reason `stop_loss`, records this bar's
EquityPoint, and the outcome is independent of the day's BUY/SELL/HOLD signal
— the stop-loss pre-empts signal processing. -/
theorem claim_C2_stop_loss_preemption (p : Params) (q : ℚ) (s : BState) (b : Bar)
    (g g' : ℤ) (hpos : 0 < s.position)
    (hstop : b.close ≤ max s.highest_price b.close * (1 - q)) :
    step p true q s b g = step p true q s b g' ∧
    (step p true q s b g).position = 0 ∧
    (step p true q s b g).trades = s.trades ++
      [{ entry_date := s.entry_date
         exit_date := b.date
         entry_price := s.entry_price
         exit_price := b.close * (1 - p.slippage)
         shares := s.position
         pnl := (b.close * (1 - p.slippage) - s.entry_price) * (s.position : ℚ)
         pnl_pct := (b.close * (1 - p.slippage) / s.entry_price - 1) * 100
         exit_reason := .stop_loss }] ∧
    (step p true q s b g).equity_curve =
      s.equity_curve ++ [(b.date, (step p true q s b g).cash)] := by
  have hsh_pos : (stepHighest s b.close).position = s.position := rfl
  have hsh_high : (stepHighest s b.close).highest_price = max s.highest_price b.close := by
    simp [stepHighest, hpos]
  have hcond : 0 < (stepHighest s b.close).position ∧ true = true ∧
      b.close ≤ (stepHighest s b.close).highest_price * (1 - q) :=
    ⟨by rw [hsh_pos]; exact hpos, rfl, by rw [hsh_high]; exact hstop⟩
  have hstep : ∀ gg : ℤ, step p true q s b gg =
      recordEquity (sell p (stepHighest s b.close) b.date b.close .stop_loss) b.date b.close := by
    intro gg
    unfold step stepCore
    rw [if_pos hcond]
  have hsell := sell_of_pos p (s := stepHighest s b.close) b.date b.close .stop_loss
    (show 0 < (stepHighest s b.close).position from hpos)
  refine ⟨by rw [hstep g, hstep g'], ?_, ?_, ?_⟩
  · rw [hstep g, hsell]; rfl
  · rw [hstep g, hsell]; rfl
  · rw [hstep g, hsell]
    simp [recordEquity, stepHighest]

/-- C2 witness: a position opened at 100 with an 8% trailing stop and trailing
high 100; the close drops to 92; the stop fires identically for a BUY and a
SELL signal. -/
theorem claim_C2_witness :
    (0 < (100 : ℤ)) ∧ ((92 : ℚ) ≤ max 100 92 * (1 - 2/25)) ∧
    (step ⟨10000, 0, 0⟩ true (2/25) ⟨0, 100, 100, some 0, 100, [], [(0, 10000)]⟩ ⟨1, 92⟩ 1 =
      step ⟨10000, 0, 0⟩ true (2/25) ⟨0, 100, 100, some 0, 100, [], [(0, 10000)]⟩ ⟨1, 92⟩ (-1) ∧
     (step ⟨10000, 0, 0⟩ true (2/25) ⟨0, 100, 100, some 0, 100, [], [(0, 10000)]⟩ ⟨1, 92⟩
        1).position = 0 ∧
     (step ⟨10000, 0, 0⟩ true (2/25) ⟨0, 100, 100, some 0, 100, [], [(0, 10000)]⟩ ⟨1, 92⟩
        1).trades = [] ++
       [{ entry_date := some 0
          exit_date := 1
          entry_price := 100
          exit_price := 92 * (1 - (0:ℚ))
          shares := 100
          pnl := (92 * (1 - (0:ℚ)) - 100) * ((100 : ℤ) : ℚ)
          pnl_pct := (92 * (1 - (0:ℚ)) / 100 - 1) * 100
          exit_reason := .stop_loss }] ∧
     (step ⟨10000, 0, 0⟩ true (2/25) ⟨0, 100, 100, some 0, 100, [], [(0, 10000)]⟩ ⟨1, 92⟩
        1).equity_curve = [(0, 10000)] ++
       [(1, (step ⟨10000, 0, 0⟩ true (2/25) ⟨0, 100, 100, some 0, 100, [], [(0, 10000)]⟩ ⟨1, 92⟩
          1).cash)]) :=
  ⟨by norm_num, by norm_num,
    claim_C2_stop_loss_preemption ⟨10000, 0, 0⟩ (2/25)
      ⟨0, 100, 100, some 0, 100, [], [(0, 10000)]⟩ ⟨1, 92⟩ 1 (-1)
      (by norm_num) (by norm_num)⟩

/-- C3: a Buy at signal price `price` fills at `price × (1 + slippage)`, sizes
`shares = ⌊(cash − commission) / fill⌋`; when that is not positive the state is
entirely unchanged, otherwise cash drops by `shares × fill + commission`, the
position opens with `entry_price = fill`, `entry_date = the bar's date`, and
`highest_price` is seeded with the unadjusted signal price. -/
theorem claim_C3_buy_semantics (p : Params) (s : BState) (d : ℕ) (price : ℚ) :
    (⌊(s.cash - p.commission) / (price * (1 + p.slippage))⌋ ≤ 0 →
      buy p s d price = s) ∧
    (0 < ⌊(s.cash - p.commission) / (price * (1 + p.slippage))⌋ →
      buy p s d price =
        { s with
          cash := s.cash -
            ((⌊(s.cash - p.commission) / (price * (1 + p.slippage))⌋ : ℚ) *
              (price * (1 + p.slippage)) + p.commission)
          position := ⌊(s.cash - p.commission) / (price * (1 + p.slippage))⌋
          entry_price := price * (1 + p.slippage)
          entry_date := some d
          highest_price := price }) := by
  constructor
  · intro hfl
    simp only [buy]
    rw [if_pos ((pyInt_nonpos_iff _).mpr hfl)]
  · intro hfl
    simp only [buy]
    rw [if_neg (fun hc => absurd ((pyInt_nonpos_iff _).mp hc) (not_le.mpr hfl)),
      pyInt_of_floor_pos hfl]

/-- C3 witness: with cash 50 at price 100 the buy is a silent no-op
(Scenario C); with cash 10000, commission 5, slippage 10% at price 100 the
fill is 110, 90 shares are bought and the state opens as the claim states. -/
theorem claim_C3_witness :
    (⌊((50:ℚ) - 0) / (100 * (1 + 0))⌋ ≤ 0) ∧
    (0 < ⌊((10000:ℚ) - 5) / (100 * (1 + 1/10))⌋) ∧
    buy ⟨50, 0, 0⟩ (resetState ⟨50, 0, 0⟩) 0 100 = resetState ⟨50, 0, 0⟩ ∧
    buy ⟨10000, 5, 1/10⟩ (resetState ⟨10000, 5, 1/10⟩) 0 100 =
      { resetState ⟨10000, 5, 1/10⟩ with
        cash := (resetState ⟨10000, 5, 1/10⟩).cash -
          ((⌊((resetState ⟨10000, 5, 1/10⟩).cash - (5:ℚ)) / (100 * (1 + 1/10))⌋ : ℚ) *
            (100 * (1 + 1/10)) + 5)
        position := ⌊((resetState ⟨10000, 5, 1/10⟩).cash - (5:ℚ)) / (100 * (1 + 1/10))⌋
        entry_price := 100 * (1 + 1/10)
        entry_date := some 0
        highest_price := 100 } :=
  ⟨by norm_num [resetState], by norm_num,
    (claim_C3_buy_semantics ⟨50, 0, 0⟩ (resetState ⟨50, 0, 0⟩) 0 100).1
      (by norm_num [resetState]),
    (claim_C3_buy_semantics ⟨10000, 5, 1/10⟩ (resetState ⟨10000, 5, 1/10⟩) 0 100).2
      (by norm_num [resetState])⟩

/-- C9: `run` begins by resetting every mutable engine field from the
constructor parameters, so its outcome does not depend on the state the
instance carries into the call; in particular a second run on the state left
by a first run returns the identical result, with no explicit reset between
the two calls. -/
theorem claim_C9_rerun_deterministic (p : Params) (u : Bool) (q : ℚ) (sigs : List ℤ)
    (bars : List Bar) (bench : Option (List (ℕ × ℚ))) (s1 s2 : BState) :
    run p s1 u q sigs bars bench = run p s2 u q sigs bars bench ∧
    (∀ r : RunResult, run p s1 u q sigs bars bench = .ok r →
      run p r.state u q sigs bars bench = run p s1 u q sigs bars bench) := by
  exact ⟨rfl, fun r _ => rfl⟩

/-- C9 witness: a one-bar run, rerun from the final state it leaves behind,
gives the same result. -/
theorem claim_C9_witness :
    (run ⟨1, 0, 0⟩ (resetState ⟨1, 0, 0⟩) false 0 [0] [⟨0, 1⟩] none =
      .ok { state := { cash := 1, position := 0, entry_price := 0, entry_date := none,
                       highest_price := 0, trades := [], equity_curve := [(0, 1)] },
            total_return := 0, benchmark_return := 0, excess_return := 0 }) ∧
    (run ⟨1, 0, 0⟩ { cash := 1, position := 0, entry_price := 0, entry_date := none,
                     highest_price := 0, trades := [], equity_curve := [(0, 1)] }
        false 0 [0] [⟨0, 1⟩] none =
      run ⟨1, 0, 0⟩ (resetState ⟨1, 0, 0⟩) false 0 [0] [⟨0, 1⟩] none) :=
  ⟨by norm_num [run, runAfterLoop, runAfterClose, simLoop, step, stepCore, stepHighest,
      preSignal, resetApply, resetState, closeEnd, mkMetrics, exceptBind, totalReturnE,
      recordEquity],
    (claim_C9_rerun_deterministic ⟨1, 0, 0⟩ false 0 [0] [⟨0, 1⟩] none
      (resetState ⟨1, 0, 0⟩)
      { cash := 1, position := 0, entry_price := 0, entry_date := none,
        highest_price := 0, trades := [], equity_curve := [(0, 1)] }).1.symm⟩

/-- C4: if a position is still open after the last bar has been processed,
exactly one additional Trade with exit_reason `end_of_data` is appended,
filled at the final bar's close (with the usual sell-side slippage), and the
post-run share count is 0; if no position is open, no such trade is appended. -/
theorem claim_C4_forced_close (p : Params) (sIn : BState) (u : Bool) (q : ℚ)
    (sigs : List ℤ) (bars : List Bar) (bench : Option (List (ℕ × ℚ)))
    (r : RunResult) (sl : BState) (b : Bar)
    (hsl : simLoop p u q (resetState p) bars sigs = .ok sl)
    (hrun : run p sIn u q sigs bars bench = .ok r)
    (hb : bars.getLast? = some b) :
    r.state.position = 0 ∧
    (0 < sl.position →
      r.state.trades = sl.trades ++
        [{ entry_date := sl.entry_date
           exit_date := b.date
           entry_price := sl.entry_price
           exit_price := b.close * (1 - p.slippage)
           shares := sl.position
           pnl := (b.close * (1 - p.slippage) - sl.entry_price) * (sl.position : ℚ)
           pnl_pct := (b.close * (1 - p.slippage) / sl.entry_price - 1) * 100
           exit_reason := .end_of_data }]) ∧
    (sl.position ≤ 0 → r.state.trades = sl.trades) := by
  obtain ⟨sl', s2, hsl', hce, hmk⟩ := run_ok_elim hrun
  rw [hsl] at hsl'
  injection hsl' with hsl'
  subst hsl'
  have hstate : r.state = s2 := (mkMetrics_ok_state hmk).1
  have hinv : PosInv sl :=
    simLoop_invariant p u q PosInv (fun s b g h => step_posInv h) bars sigs _ sl
      (by simp [PosInv, resetState]) hsl
  refine ⟨by rw [hstate]; exact closeEnd_ok_position hinv hce, ?_, ?_⟩
  · intro hpos
    rw [closeEnd_of_pos hpos hb] at hce
    injection hce with hce
    rw [hstate, ← hce, sell_of_pos _ _ _ _ hpos]
  · intro hnp
    rw [closeEnd_of_nonpos (by omega)] at hce
    injection hce with hce
    rw [hstate, ← hce]

/-- C4 witness: a buy on bar 0 is still open after bar 1, so the run appends
exactly one `end_of_data` trade at the final close 110 and ends flat. -/
theorem claim_C4_witness :
    (simLoop ⟨10000, 0, 0⟩ false 0 (resetState ⟨10000, 0, 0⟩) [⟨0, 100⟩, ⟨1, 110⟩] [1, 0] =
      .ok { cash := 0, position := 100, entry_price := 100, entry_date := some 0,
            highest_price := 110, trades := [],
            equity_curve := [(0, 10000), (1, 11000)] }) ∧
    (run ⟨10000, 0, 0⟩ (resetState ⟨10000, 0, 0⟩) false 0 [1, 0] [⟨0, 100⟩, ⟨1, 110⟩] none =
      .ok { state := { cash := 11000, position := 0, entry_price := 0, entry_date := none,
                       highest_price := 0,
                       trades := [{ entry_date := some 0, exit_date := 1, entry_price := 100,
                                    exit_price := 110, shares := 100, pnl := 1000,
                                    pnl_pct := 10, exit_reason := .end_of_data }],
                       equity_curve := [(0, 10000), (1, 11000)] },
            total_return := 10, benchmark_return := 0, excess_return := 0 }) ∧
    ([(⟨0, 100⟩ : Bar), ⟨1, 110⟩].getLast? = some ⟨1, 110⟩) ∧
    (0 < (100 : ℤ)) ∧
    ({ state := { cash := 11000, position := 0, entry_price := 0, entry_date := none,
                  highest_price := 0,
                  trades := [{ entry_date := some 0, exit_date := 1, entry_price := 100,
                               exit_price := 110, shares := 100, pnl := 1000,
                               pnl_pct := 10, exit_reason := .end_of_data }],
                  equity_curve := [(0, 10000), (1, 11000)] },
       total_return := 10, benchmark_return := 0, excess_return := 0
       : RunResult }).state.trades =
      [] ++
        [{ entry_date := some 0
           exit_date := 1
           entry_price := (100 : ℚ)
           exit_price := 110 * (1 - (0 : ℚ))
           shares := 100
           pnl := (110 * (1 - (0 : ℚ)) - 100) * ((100 : ℤ) : ℚ)
           pnl_pct := (110 * (1 - (0 : ℚ)) / 100 - 1) * 100
           exit_reason := .end_of_data }] := by
  refine ⟨?_, ?_, by rfl, by norm_num, ?_⟩
  · norm_num [simLoop, step, stepCore, stepHighest, preSignal, buy, sell, recordEquity,
      resetState, pyInt]
  · norm_num [run, runAfterLoop, runAfterClose, simLoop, step, stepCore, stepHighest,
      preSignal, buy, sell, recordEquity, resetApply, resetState, closeEnd, mkMetrics,
      exceptBind, totalReturnE, pyInt]
  · exact (claim_C4_forced_close ⟨10000, 0, 0⟩ (resetState ⟨10000, 0, 0⟩) false 0 [1, 0]
      [⟨0, 100⟩, ⟨1, 110⟩] none
      { state := { cash := 11000, position := 0, entry_price := 0, entry_date := none,
                   highest_price := 0,
                   trades := [{ entry_date := some 0, exit_date := 1, entry_price := 100,
                                exit_price := 110, shares := 100, pnl := 1000,
                                pnl_pct := 10, exit_reason := .end_of_data }],
                   equity_curve := [(0, 10000), (1, 11000)] },
        total_return := 10, benchmark_return := 0, excess_return := 0 }
      { cash := 0, position := 100, entry_price := 100, entry_date := some 0,
        highest_price := 110, trades := [],
        equity_curve := [(0, 10000), (1, 11000)] }
      ⟨1, 110⟩
      (by norm_num [simLoop, step, stepCore, stepHighest, preSignal, buy, sell, recordEquity,
        resetState, pyInt])
      (by norm_num [run, runAfterLoop, runAfterClose, simLoop, step, stepCore, stepHighest,
        preSignal, buy, sell, recordEquity, resetApply, resetState, closeEnd, mkMetrics,
        exceptBind, totalReturnE, pyInt])
      (by rfl)).2.1 (by norm_num)

/-- C10: the end-of-data forced close never touches the equity curve — the
curve is exactly the loop's curve, with one EquityPoint per input bar, and its
final point values the open position at the raw final close; therefore when a
position is force-closed the final recorded equity exceeds post-run cash by
exactly `shares × close × slippage + commission`, the two being equal exactly
when slippage and commission are both zero (for positive close and
non-negative costs). -/
theorem claim_C10_forced_close_frame (p : Params) (sIn : BState) (u : Bool) (q : ℚ)
    (sigs : List ℤ) (bars : List Bar) (bench : Option (List (ℕ × ℚ)))
    (r : RunResult) (sl : BState) (b : Bar)
    (hsl : simLoop p u q (resetState p) bars sigs = .ok sl)
    (hrun : run p sIn u q sigs bars bench = .ok r)
    (hb : bars.getLast? = some b) :
    r.state.equity_curve = sl.equity_curve ∧
    r.state.equity_curve.length = bars.length ∧
    r.state.equity_curve.getLast? = some (b.date, sl.cash + (sl.position : ℚ) * b.close) ∧
    (0 < sl.position →
      (sl.cash + (sl.position : ℚ) * b.close) - r.state.cash =
        (sl.position : ℚ) * b.close * p.slippage + p.commission) ∧
    (0 < sl.position → 0 ≤ p.commission → 0 ≤ p.slippage → 0 < b.close →
      ((sl.cash + (sl.position : ℚ) * b.close) - r.state.cash = 0 ↔
        p.slippage = 0 ∧ p.commission = 0)) := by
  obtain ⟨sl', s2, hsl', hce, hmk⟩ := run_ok_elim hrun
  rw [hsl] at hsl'
  injection hsl' with hsl'
  subst hsl'
  have hstate : r.state = s2 := (mkMetrics_ok_state hmk).1
  have hcurve : s2.equity_curve = sl.equity_curve := closeEnd_ok_curve hce
  have hlen : sl.equity_curve.length = bars.length := by
    have := simLoop_ok_length bars sigs _ sl hsl
    simpa [resetState] using this
  have hlast := simLoop_ok_last bars sigs _ sl b hsl hb
  refine ⟨by rw [hstate, hcurve], by rw [hstate, hcurve]; exact hlen,
    by rw [hstate, hcurve]; exact hlast, ?_, ?_⟩
  · intro hpos
    rw [closeEnd_of_pos hpos hb] at hce
    injection hce with hce
    rw [hstate, ← hce, sell_of_pos _ _ _ _ hpos]
    show (sl.cash + (sl.position : ℚ) * b.close) -
        (sl.cash + ((sl.position : ℚ) * (b.close * (1 - p.slippage)) - p.commission)) = _
    ring
  · intro hpos hcm hsp hcl
    rw [closeEnd_of_pos hpos hb] at hce
    injection hce with hce
    rw [hstate, ← hce, sell_of_pos _ _ _ _ hpos]
    show (sl.cash + (sl.position : ℚ) * b.close) -
        (sl.cash + ((sl.position : ℚ) * (b.close * (1 - p.slippage)) - p.commission)) = 0 ↔ _
    constructor
    · intro h0
      have hPc : (0:ℚ) < (sl.position : ℚ) * b.close :=
        mul_pos (by exact_mod_cast hpos) hcl
      have h1 : (sl.position : ℚ) * b.close * p.slippage + p.commission = 0 := by
        linear_combination h0
      have h2 : (sl.position : ℚ) * b.close * p.slippage = 0 ∧ p.commission = 0 := by
        constructor <;> nlinarith [mul_nonneg (le_of_lt hPc) hsp]
      refine ⟨?_, h2.2⟩
      rcases mul_eq_zero.mp h2.1 with h3 | h3
      · exact absurd h3 (ne_of_gt hPc)
      · exact h3
    · rintro ⟨h1, h2⟩
      rw [h1, h2]
      ring

/-- C10 witness: a buy with 10% slippage and commission 5 held to end of data;
the final equity point values the 90 shares at the raw close 100, exceeding
post-run cash 8190 by 90 × 100 × 0.1 + 5 = 905, and the difference is nonzero
because slippage and commission are not both zero. -/
theorem claim_C10_witness :
    (simLoop ⟨10000, 5, 1/10⟩ false 0 (resetState ⟨10000, 5, 1/10⟩)
        [⟨0, 100⟩, ⟨1, 100⟩] [1, 0] =
      .ok { cash := 95, position := 90, entry_price := 110, entry_date := some 0,
            highest_price := 100, trades := [],
            equity_curve := [(0, 9095), (1, 9095)] }) ∧
    (run ⟨10000, 5, 1/10⟩ (resetState ⟨10000, 5, 1/10⟩) false 0 [1, 0]
        [⟨0, 100⟩, ⟨1, 100⟩] none =
      .ok { state := { cash := 8190, position := 0, entry_price := 0, entry_date := none,
                       highest_price := 0,
                       trades := [{ entry_date := some 0, exit_date := 1, entry_price := 110,
                                    exit_price := 90, shares := 90, pnl := -1800,
                                    pnl_pct := -200/11, exit_reason := .end_of_data }],
                       equity_curve := [(0, 9095), (1, 9095)] },
            total_return := 0, benchmark_return := 0, excess_return := 0 }) ∧
    ([(⟨0, 100⟩ : Bar), ⟨1, 100⟩].getLast? = some ⟨1, 100⟩) ∧
    (0 < (90 : ℤ)) ∧
    (((95 : ℚ) + ((90 : ℤ) : ℚ) * 100) - 8190 = ((90 : ℤ) : ℚ) * 100 * (1/10) + 5) ∧
    ((((95 : ℚ) + ((90 : ℤ) : ℚ) * 100) - 8190 = 0) ↔ ((1 : ℚ)/10 = 0 ∧ (5 : ℚ) = 0)) := by
  refine ⟨?_, ?_, by rfl, by norm_num, ?_, ?_⟩
  · norm_num [simLoop, step, stepCore, stepHighest, preSignal, buy, sell, recordEquity,
      resetState, pyInt]
  · norm_num [run, runAfterLoop, runAfterClose, simLoop, step, stepCore, stepHighest,
      preSignal, buy, sell, recordEquity, resetApply, resetState, closeEnd, mkMetrics,
      exceptBind, totalReturnE, pyInt]
  · exact (claim_C10_forced_close_frame ⟨10000, 5, 1/10⟩ (resetState ⟨10000, 5, 1/10⟩)
      false 0 [1, 0] [⟨0, 100⟩, ⟨1, 100⟩] none
      { state := { cash := 8190, position := 0, entry_price := 0, entry_date := none,
                   highest_price := 0,
                   trades := [{ entry_date := some 0, exit_date := 1, entry_price := 110,
                                exit_price := 90, shares := 90, pnl := -1800,
                                pnl_pct := -200/11, exit_reason := .end_of_data }],
                   equity_curve := [(0, 9095), (1, 9095)] },
        total_return := 0, benchmark_return := 0, excess_return := 0 }
      { cash := 95, position := 90, entry_price := 110, entry_date := some 0,
        highest_price := 100, trades := [], equity_curve := [(0, 9095), (1, 9095)] }
      ⟨1, 100⟩
      (by norm_num [simLoop, step, stepCore, stepHighest, preSignal, buy, sell, recordEquity,
        resetState, pyInt])
      (by norm_num [run, runAfterLoop, runAfterClose, simLoop, step, stepCore, stepHighest,
        preSignal, buy, sell, recordEquity, resetApply, resetState, closeEnd, mkMetrics,
        exceptBind, totalReturnE, pyInt])
      (by rfl)).2.2.2.1 (by norm_num)
  · exact (claim_C10_forced_close_frame ⟨10000, 5, 1/10⟩ (resetState ⟨10000, 5, 1/10⟩)
      false 0 [1, 0] [⟨0, 100⟩, ⟨1, 100⟩] none
      { state := { cash := 8190, position := 0, entry_price := 0, entry_date := none,
                   highest_price := 0,
                   trades := [{ entry_date := some 0, exit_date := 1, entry_price := 110,
                                exit_price := 90, shares := 90, pnl := -1800,
                                pnl_pct := -200/11, exit_reason := .end_of_data }],
                   equity_curve := [(0, 9095), (1, 9095)] },
        total_return := 0, benchmark_return := 0, excess_return := 0 }
      { cash := 95, position := 90, entry_price := 110, entry_date := some 0,
        highest_price := 100, trades := [], equity_curve := [(0, 9095), (1, 9095)] }
      ⟨1, 100⟩
      (by norm_num [simLoop, step, stepCore, stepHighest, preSignal, buy, sell, recordEquity,
        resetState, pyInt])
      (by norm_num [run, runAfterLoop, runAfterClose, simLoop, step, stepCore, stepHighest,
        preSignal, buy, sell, recordEquity, resetApply, resetState, closeEnd, mkMetrics,
        exceptBind, totalReturnE, pyInt])
      (by rfl)).2.2.2.2 (by norm_num) (by norm_num) (by norm_num) (by norm_num)

/-- C6: when every signal is HOLD, a successful run opens no position, records
no trade, every EquityPoint equals initial_cash, the curve has one point per
bar, and total_return is 0. -/
theorem claim_C6_all_hold (p : Params) (sIn : BState) (u : Bool) (q : ℚ)
    (sigs : List ℤ) (bars : List Bar) (bench : Option (List (ℕ × ℚ))) (r : RunResult)
    (hsig : ∀ g ∈ sigs, g = (0:ℤ)) (hcash : 0 < p.initial_cash)
    (hrun : run p sIn u q sigs bars bench = .ok r) :
    r.state.trades = [] ∧ r.state.position = 0 ∧
    (∀ pt ∈ r.state.equity_curve, pt.2 = p.initial_cash) ∧
    r.state.equity_curve.length = bars.length ∧
    r.total_return = 0 := by
  obtain ⟨sl, s2, hsl, hce, hmk⟩ := run_ok_elim hrun
  obtain ⟨hc, hp, ht, hcur⟩ := simLoop_hold bars sigs (resetState p) sl hsig (by rfl) hsl
  have hc' : sl.cash = p.initial_cash := hc
  have ht' : sl.trades = [] := ht
  have hs2 : s2 = sl := by
    rw [closeEnd_of_nonpos (by omega)] at hce
    injection hce with hce
    exact hce.symm
  obtain ⟨hstate, htr⟩ := mkMetrics_ok_state hmk
  have hpts : ∀ pt ∈ sl.equity_curve, pt.2 = p.initial_cash := by
    intro pt hpt
    rcases hcur pt hpt with h' | h'
    · simp [resetState] at h'
    · exact h'.trans rfl
  have hlen : sl.equity_curve.length = bars.length := by
    have := simLoop_ok_length bars sigs _ sl hsl
    simpa [resetState] using this
  refine ⟨by rw [hstate, hs2]; exact ht', by rw [hstate, hs2]; exact hp,
    by rw [hstate, hs2]; exact hpts, by rw [hstate, hs2]; exact hlen, ?_⟩
  rw [hs2] at htr
  rcases hcv : sl.equity_curve.map Prod.snd with _ | ⟨x, xs⟩
  · rw [hcv] at htr
    simp [totalReturnE] at htr
  · have hx : ∀ y ∈ x :: xs, y = p.initial_cash := by
      intro y hy
      rw [← hcv] at hy
      obtain ⟨pt, hpt, hpty⟩ := List.mem_map.mp hy
      rw [← hpty]
      exact hpts pt hpt
    have hxval : x = p.initial_cash := hx x (List.mem_cons_self x xs)
    have hlastval : xs.getLastD x = p.initial_cash := hx _ (List.getLastD_mem_cons xs x)
    rw [hcv] at htr
    have hred : totalReturnE (x :: xs) = .ok ((xs.getLastD x / x - 1) * 100) := rfl
    rw [hred] at htr
    injection htr with htr
    rw [← htr, hlastval, hxval, div_self (ne_of_gt hcash)]
    norm_num

/-- C6 witness: a two-bar all-HOLD run with moving prices stays at the initial
cash on every bar, with no trades and zero total return. -/
theorem claim_C6_witness :
    (∀ g ∈ [(0:ℤ), 0], g = (0:ℤ)) ∧ ((0:ℚ) < 10000) ∧
    (run ⟨10000, 0, 1/1000⟩ (resetState ⟨10000, 0, 1/1000⟩) true (2/25) [0, 0]
        [⟨0, 100⟩, ⟨1, 110⟩] none =
      .ok { state := { cash := 10000, position := 0, entry_price := 0, entry_date := none,
                       highest_price := 0, trades := [],
                       equity_curve := [(0, 10000), (1, 10000)] },
            total_return := 0, benchmark_return := 0, excess_return := 0 }) ∧
    (({ state := { cash := 10000, position := 0, entry_price := 0, entry_date := none,
                   highest_price := 0, trades := [],
                   equity_curve := [(0, 10000), (1, 10000)] },
        total_return := 0, benchmark_return := 0, excess_return := 0
        : RunResult }).state.trades = [] ∧
     ({ state := { cash := 10000, position := 0, entry_price := 0, entry_date := none,
                   highest_price := 0, trades := [],
                   equity_curve := [(0, 10000), (1, 10000)] },
        total_return := 0, benchmark_return := 0, excess_return := 0
        : RunResult }).state.position = 0 ∧
     (∀ pt ∈ ({ state := { cash := 10000, position := 0, entry_price := 0, entry_date := none,
                           highest_price := 0, trades := [],
                           equity_curve := [(0, 10000), (1, 10000)] },
                total_return := 0, benchmark_return := 0, excess_return := 0
                : RunResult }).state.equity_curve, pt.2 = (10000 : ℚ)) ∧
     ({ state := { cash := 10000, position := 0, entry_price := 0, entry_date := none,
                   highest_price := 0, trades := [],
                   equity_curve := [(0, 10000), (1, 10000)] },
        total_return := 0, benchmark_return := 0, excess_return := 0
        : RunResult }).state.equity_curve.length = [(⟨0, 100⟩ : Bar), ⟨1, 110⟩].length ∧
     ({ state := { cash := 10000, position := 0, entry_price := 0, entry_date := none,
                   highest_price := 0, trades := [],
                   equity_curve := [(0, 10000), (1, 10000)] },
        total_return := 0, benchmark_return := 0, excess_return := 0
        : RunResult }).total_return = 0) := by
  refine ⟨by simp, by norm_num, ?_, ?_⟩
  · norm_num [run, runAfterLoop, runAfterClose, simLoop, step, stepCore, stepHighest,
      preSignal, buy, sell, recordEquity, resetApply, resetState, closeEnd, mkMetrics,
      exceptBind, totalReturnE, pyInt]
  · exact claim_C6_all_hold ⟨10000, 0, 1/1000⟩ (resetState ⟨10000, 0, 1/1000⟩) true (2/25)
      [0, 0] [⟨0, 100⟩, ⟨1, 110⟩] none
      { state := { cash := 10000, position := 0, entry_price := 0, entry_date := none,
                   highest_price := 0, trades := [],
                   equity_curve := [(0, 10000), (1, 10000)] },
        total_return := 0, benchmark_return := 0, excess_return := 0 }
      (by simp) (by norm_num)
      (by norm_num [run, runAfterLoop, runAfterClose, simLoop, step, stepCore, stepHighest,
        preSignal, buy, sell, recordEquity, resetApply, resetState, closeEnd, mkMetrics,
        exceptBind, totalReturnE, pyInt])

/-- C1 (amended): `Backtester.run` performs no precondition validation.  Any
non-empty bar sequence with at least as many signals — including sequences with
duplicate or non-increasing timestamps — is simulated to completion (no
benchmark supplied); a signal sequence shorter than the bar sequence fails
with the pandas positional `IndexError` raised mid-loop at the first missing
signal, not with a precondition message before simulating; surplus signals are
silently ignored. -/
theorem claim_C1_no_precondition_validation :
    (∀ (p : Params) (sIn : BState) (u : Bool) (q : ℚ) (sigs : List ℤ) (bars : List Bar),
      bars ≠ [] → bars.length ≤ sigs.length →
      (run p sIn u q sigs bars none).toOption.isSome = true) ∧
    (∀ (p : Params) (sIn : BState) (u : Bool) (q : ℚ) (sigs : List ℤ) (bars : List Bar)
        (bench : Option (List (ℕ × ℚ))),
      sigs.length < bars.length →
      run p sIn u q sigs bars bench = .error signalOutOfRangeMsg) := by
  constructor
  · intro p sIn u q sigs bars hne hlen
    obtain ⟨r, hr⟩ := run_ok_of hne hlen
    rw [hr]
    rfl
  · intro p sIn u q sigs bars bench hlt
    unfold run resetApply
    rw [simLoop_err_of_lt bars sigs _ hlt]
    rfl

/-- C1 witness: a run over bars with strictly decreasing timestamps completes
normally, and a run with one missing signal raises the positional IndexError. -/
theorem claim_C1_witness :
    ([(⟨9, 100⟩ : Bar), ⟨3, 100⟩] ≠ []) ∧
    ([(⟨9, 100⟩ : Bar), ⟨3, 100⟩].length ≤ [(0:ℤ), 0].length) ∧
    ((run ⟨10000, 0, 0⟩ (resetState ⟨10000, 0, 0⟩) false 0 [0, 0]
        [⟨9, 100⟩, ⟨3, 100⟩] none).toOption.isSome = true) ∧
    ([(0:ℤ)].length < [(⟨0, 100⟩ : Bar), ⟨1, 100⟩].length) ∧
    (run ⟨10000, 0, 0⟩ (resetState ⟨10000, 0, 0⟩) false 0 [0]
        [⟨0, 100⟩, ⟨1, 100⟩] none = .error signalOutOfRangeMsg) :=
  ⟨by simp, by simp,
    claim_C1_no_precondition_validation.1 ⟨10000, 0, 0⟩ (resetState ⟨10000, 0, 0⟩) false 0
      [0, 0] [⟨9, 100⟩, ⟨3, 100⟩] (by simp) (by simp),
    by simp,
    claim_C1_no_precondition_validation.2 ⟨10000, 0, 0⟩ (resetState ⟨10000, 0, 0⟩) false 0
      [0] [⟨0, 100⟩, ⟨1, 100⟩] none (by simp)⟩

/-- C1 counterexample: the input whose two bars share the timestamp 5 violates
the claimed strictly-increasing precondition, yet `run` does not abort before
simulating — it returns a normal result whose equity curve records both bars. -/
theorem claim_C1_counterexample :
    run ⟨10000, 0, 1/1000⟩ (resetState ⟨10000, 0, 1/1000⟩) false 0 [0, 0]
        [⟨5, 100⟩, ⟨5, 100⟩] none =
      .ok { state := { cash := 10000, position := 0, entry_price := 0, entry_date := none,
                       highest_price := 0, trades := [],
                       equity_curve := [(5, 10000), (5, 10000)] },
            total_return := 0, benchmark_return := 0, excess_return := 0 } ∧
    ¬ (5 : ℕ) < 5 := by
  constructor
  · norm_num [run, runAfterLoop, runAfterClose, simLoop, step, stepCore, stepHighest,
      preSignal, buy, sell, recordEquity, resetApply, resetState, closeEnd, mkMetrics,
      exceptBind, totalReturnE, pyInt]
  · omega

/-- C5 (amended): for every input whose bar timestamps are non-decreasing, at
every bar the engine state satisfies the position-book invariant (never a
negative share count; shares are held exactly when a position is open, i.e. an
entry date is recorded), a step never replaces an open position with a new one
(no pyramiding), and in a successful run's ledger every trade carries an entry
date and consecutive trades do not overlap: exit_date of trade k ≤ entry_date
of trade k+1. -/
theorem claim_C5_single_position_ledger (p : Params) (sIn : BState) (u : Bool) (q : ℚ)
    (sigs : List ℤ) (bars : List Bar) (bench : Option (List (ℕ × ℚ))) (r : RunResult)
    (hsort : List.Pairwise (fun a b : Bar => a.date ≤ b.date) bars)
    (hrun : run p sIn u q sigs bars bench = .ok r) :
    (∀ s' ∈ simTrace p u q sigs bars, PosInv s') ∧
    List.Chain' (fun a b : BState => 0 < a.position →
      (b.position = a.position ∧ b.entry_date = a.entry_date) ∨ b.position = 0)
      (simTrace p u q sigs bars) ∧
    (∀ t ∈ r.state.trades, t.entry_date.isSome = true) ∧
    List.Chain' tradeChron r.state.trades := by
  refine ⟨?_, ?_, ?_⟩
  · unfold simTrace
    exact scanl_all (fun (s : BState) (bg : Bar × ℤ) => step p u q s bg.1 bg.2) PosInv
      (fun s bg h => step_posInv h) (bars.zip sigs) (resetState p)
      (by simp [PosInv, resetState])
  · unfold simTrace
    exact chain'_scanl (fun (s : BState) (bg : Bar × ℤ) => step p u q s bg.1 bg.2) _
      (fun s bg h => step_pyramiding h) (bars.zip sigs) (resetState p)
  · obtain ⟨sl, s2, hsl, hce, hmk⟩ := run_ok_elim hrun
    have hstate : r.state = s2 := (mkMetrics_ok_state hmk).1
    have hinv0 : LedgerInv (resetState p) 0 := by
      refine ⟨?_, ?_, ?_, ?_⟩
      · intro t ht; simp [resetState] at ht
      · exact List.chain'_nil
      · intro h0; norm_num [resetState] at h0
      · intro _ t ht; exact absurd ht (by simp [resetState])
    obtain ⟨d', hinv⟩ := simLoop_ledger bars sigs (resetState p) sl 0
      (fun b _ => Nat.zero_le _) hsort hinv0 hsl
    have hl := closeEnd_ledger hinv hce
    rw [hstate]
    exact hl

/-- C5 witness: a sorted four-bar run with two round trips; the ledger's two
trades are chronologically disjoint (exit 1 ≤ entry 2) and every traced state
satisfies the position-book invariant. -/
theorem claim_C5_witness :
    (List.Pairwise (fun a b : Bar => a.date ≤ b.date)
      [⟨0, 100⟩, ⟨1, 110⟩, ⟨2, 100⟩, ⟨3, 105⟩]) ∧
    (run ⟨10000, 0, 0⟩ (resetState ⟨10000, 0, 0⟩) false 0 [1, -1, 1, -1]
        [⟨0, 100⟩, ⟨1, 110⟩, ⟨2, 100⟩, ⟨3, 105⟩] none =
      .ok { state := { cash := 11550, position := 0, entry_price := 0, entry_date := none,
                       highest_price := 0,
                       trades := [{ entry_date := some 0, exit_date := 1, entry_price := 100,
                                    exit_price := 110, shares := 100, pnl := 1000,
                                    pnl_pct := 10, exit_reason := .signal },
                                  { entry_date := some 2, exit_date := 3, entry_price := 100,
                                    exit_price := 105, shares := 110, pnl := 550,
                                    pnl_pct := 5, exit_reason := .signal }],
                       equity_curve := [(0, 10000), (1, 11000), (2, 11000), (3, 11550)] },
            total_return := 31/2, benchmark_return := 0, excess_return := 0 }) ∧
    ((∀ s' ∈ simTrace ⟨10000, 0, 0⟩ false 0 [1, -1, 1, -1]
        [⟨0, 100⟩, ⟨1, 110⟩, ⟨2, 100⟩, ⟨3, 105⟩], PosInv s') ∧
     List.Chain' (fun a b : BState => 0 < a.position →
        (b.position = a.position ∧ b.entry_date = a.entry_date) ∨ b.position = 0)
       (simTrace ⟨10000, 0, 0⟩ false 0 [1, -1, 1, -1]
         [⟨0, 100⟩, ⟨1, 110⟩, ⟨2, 100⟩, ⟨3, 105⟩]) ∧
     (∀ t ∈ ([{ entry_date := some 0, exit_date := 1, entry_price := (100:ℚ),
                exit_price := 110, shares := 100, pnl := 1000,
                pnl_pct := 10, exit_reason := ExitReason.signal },
              { entry_date := some 2, exit_date := 3, entry_price := 100,
                exit_price := 105, shares := 110, pnl := 550,
                pnl_pct := 5, exit_reason := ExitReason.signal }] : List Trade),
        t.entry_date.isSome = true) ∧
     List.Chain' tradeChron
       ([{ entry_date := some 0, exit_date := 1, entry_price := (100:ℚ),
           exit_price := 110, shares := 100, pnl := 1000,
           pnl_pct := 10, exit_reason := ExitReason.signal },
         { entry_date := some 2, exit_date := 3, entry_price := 100,
           exit_price := 105, shares := 110, pnl := 550,
           pnl_pct := 5, exit_reason := ExitReason.signal }] : List Trade)) := by
  refine ⟨by norm_num [List.pairwise_cons], ?_, ?_⟩
  · norm_num [run, runAfterLoop, runAfterClose, simLoop, step, stepCore, stepHighest,
      preSignal, buy, sell, recordEquity, resetApply, resetState, closeEnd, mkMetrics,
      exceptBind, totalReturnE, pyInt]
  · exact claim_C5_single_position_ledger ⟨10000, 0, 0⟩ (resetState ⟨10000, 0, 0⟩) false 0
      [1, -1, 1, -1] [⟨0, 100⟩, ⟨1, 110⟩, ⟨2, 100⟩, ⟨3, 105⟩] none
      { state := { cash := 11550, position := 0, entry_price := 0, entry_date := none,
                   highest_price := 0,
                   trades := [{ entry_date := some 0, exit_date := 1, entry_price := 100,
                                exit_price := 110, shares := 100, pnl := 1000,
                                pnl_pct := 10, exit_reason := .signal },
                              { entry_date := some 2, exit_date := 3, entry_price := 100,
                                exit_price := 105, shares := 110, pnl := 550,
                                pnl_pct := 5, exit_reason := .signal }],
                   equity_curve := [(0, 10000), (1, 11000), (2, 11000), (3, 11550)] },
        total_return := 31/2, benchmark_return := 0, excess_return := 0 }
      (by norm_num [List.pairwise_cons])
      (by norm_num [run, runAfterLoop, runAfterClose, simLoop, step, stepCore, stepHighest,
        preSignal, buy, sell, recordEquity, resetApply, resetState, closeEnd, mkMetrics,
        exceptBind, totalReturnE, pyInt])

/-- C5 counterexample: on an input whose timestamps decrease (10, 9, 8, 7) —
which the engine happily simulates — the completed run's two trades are
(entry 10, exit 9) and (entry 8, exit 7), so exit_date of trade 1 (= 9) is NOT
≤ entry_date of trade 2 (= 8): as stated over every input, the non-overlap
claim is false. -/
theorem claim_C5_counterexample :
    run ⟨10000, 0, 0⟩ (resetState ⟨10000, 0, 0⟩) false 0 [1, -1, 1, -1]
        [⟨10, 100⟩, ⟨9, 100⟩, ⟨8, 100⟩, ⟨7, 100⟩] none =
      .ok { state := { cash := 10000, position := 0, entry_price := 0, entry_date := none,
                       highest_price := 0,
                       trades := [{ entry_date := some 10, exit_date := 9, entry_price := 100,
                                    exit_price := 100, shares := 100, pnl := 0,
                                    pnl_pct := 0, exit_reason := .signal },
                                  { entry_date := some 8, exit_date := 7, entry_price := 100,
                                    exit_price := 100, shares := 100, pnl := 0,
                                    pnl_pct := 0, exit_reason := .signal }],
                       equity_curve := [(10, 10000), (9, 10000), (8, 10000), (7, 10000)] },
            total_return := 0, benchmark_return := 0, excess_return := 0 } ∧
    ¬ List.Chain' tradeChron
        ([{ entry_date := some 10, exit_date := 9, entry_price := (100:ℚ),
            exit_price := 100, shares := 100, pnl := 0,
            pnl_pct := 0, exit_reason := ExitReason.signal },
          { entry_date := some 8, exit_date := 7, entry_price := 100,
            exit_price := 100, shares := 100, pnl := 0,
            pnl_pct := 0, exit_reason := ExitReason.signal }] : List Trade) ∧
    ¬ ((9 : ℕ) ≤ 8) := by
  refine ⟨?_, ?_, by omega⟩
  · norm_num [run, runAfterLoop, runAfterClose, simLoop, step, stepCore, stepHighest,
      preSignal, buy, sell, recordEquity, resetApply, resetState, closeEnd, mkMetrics,
      exceptBind, totalReturnE, pyInt]
  · simp [List.chain'_cons, tradeChron]

/-- C7 (amended): `sharpe_ratio` returns 0 whenever the sample standard
deviation of the daily returns compares equal to zero — in particular for the
return series of any flat equity curve with at least three points; a flat
curve with only two points yields a single daily return, whose pandas sample
standard deviation (`ddof = 1`) is NaN, so `sharpe_ratio` is NaN there, not 0.
`sortino_ratio` returns +∞ whenever the return series has no negative entry,
and returns 0 whenever the computed downside deviation is zero; no branch
divides by zero. -/
theorem claim_C7_degenerate_ratios :
    (∀ (rs : List ℚ) (rf : ℚ), sampleVar rs = some 0 → sharpe rs rf = .zero) ∧
    (∀ (c : ℚ) (n : ℕ) (rf : ℚ), c ≠ 0 → 3 ≤ n →
      sharpe (pctChange (List.replicate n c)) rf = .zero) ∧
    (∀ (c : ℚ) (rf : ℚ), sharpe (pctChange [c, c]) rf = .nan) ∧
    (∀ (rs : List ℚ) (rf : ℚ), (∀ x ∈ rs, ¬ x < 0) → sortino rs rf = .inf) ∧
    (∀ (rs : List ℚ) (rf : ℚ), sampleVar (rs.filter fun x => decide (x < 0)) = some 0 →
      sortino rs rf = .zero) := by
  refine ⟨?_, ?_, ?_, ?_, ?_⟩
  · intro rs rf h
    simp [sharpe, h]
  · intro c n rf hc hn
    rw [pctChange_replicate hc]
    simp [sharpe, sampleVar_replicate_zero (show 2 ≤ n - 1 by omega)]
  · intro c rf
    simp [sharpe, pctChange, sampleVar]
  · intro rs rf h
    have hnil : rs.filter (fun x => decide (x < 0)) = [] :=
      List.filter_eq_nil_iff.mpr (by intro a ha; simpa using h a ha)
    simp [sortino, hnil]
  · intro rs rf h
    have hlen := sampleVar_length h
    unfold sortino
    rw [if_neg (by omega), h]
    simp

/-- C7 witness: the zero-variance series [0, 0] and the three-point flat curve
give sharpe 0; the two-point flat curve gives sharpe NaN; the no-down-day
series [1/100, 0] gives sortino +∞; the series with two equal negative
returns has zero downside deviation and gives sortino 0. -/
theorem claim_C7_witness :
    (sampleVar [(0:ℚ), 0] = some 0) ∧
    (sharpe [(0:ℚ), 0] (1/50) = .zero) ∧
    (sharpe (pctChange (List.replicate 3 (100:ℚ))) (1/50) = .zero) ∧
    (sharpe (pctChange [(100:ℚ), 100]) (1/50) = .nan) ∧
    (∀ x ∈ [(1:ℚ)/100, 0], ¬ x < 0) ∧
    (sortino [(1:ℚ)/100, 0] (1/50) = .inf) ∧
    (sampleVar ([(-1:ℚ)/100, -1/100, 1/50].filter fun x => decide (x < 0)) = some 0) ∧
    (sortino [(-1:ℚ)/100, -1/100, 1/50] (1/50) = .zero) := by
  refine ⟨?_, ?_, ?_, ?_, ?_, ?_, ?_, ?_⟩
  · norm_num [sampleVar, listMean]
  · exact claim_C7_degenerate_ratios.1 [0, 0] (1/50) (by norm_num [sampleVar, listMean])
  · exact claim_C7_degenerate_ratios.2.1 100 3 (1/50) (by norm_num) (by norm_num)
  · exact claim_C7_degenerate_ratios.2.2.1 100 (1/50)
  · norm_num
  · exact claim_C7_degenerate_ratios.2.2.2.1 [1/100, 0] (1/50) (by norm_num)
  · norm_num [sampleVar, listMean, List.filter]
  · exact claim_C7_degenerate_ratios.2.2.2.2 [-1/100, -1/100, 1/50] (1/50)
      (by norm_num [sampleVar, listMean, List.filter])

/-- C7 counterexample: the perfectly flat two-point equity curve [100, 100]
has the one-element daily return series [0], whose pandas sample standard
deviation (`ddof = 1`) is NaN; `NaN == 0` is false, so `sharpe_ratio` divides
by NaN and returns NaN — not 0 as the claim states for every perfectly flat
curve. -/
theorem claim_C7_counterexample :
    sharpe (pctChange [(100:ℚ), 100]) (1/50) = .nan ∧
    RatioVal.nan ≠ RatioVal.zero := by
  constructor
  · norm_num [sharpe, pctChange, sampleVar]
  · intro h
    cases h

/-- C8 (amended): with a benchmark supplied, the benchmark closes are rescaled
so that the benchmark's first close maps to `initial_cash` — the equity
curve's starting capital, which equals the curve's first recorded value only
when no position is opened on the first bar or slippage and commission are
zero — then clipped to the strategy's date range, and `benchmark_return` is
the `total_return` of that curve, with
`excess_return = total_return − benchmark_return`; with no benchmark supplied
both are 0. -/
theorem claim_C8_benchmark_handling :
    (∀ (p : Params) (sIn : BState) (u : Bool) (q : ℚ) (sigs : List ℤ) (bars : List Bar)
        (bb : List (ℕ × ℚ)) (r : RunResult) (b0 e0 e1 : ℕ × ℚ),
      run p sIn u q sigs bars (some bb) = .ok r →
      bb.head? = some b0 →
      r.state.equity_curve.head? = some e0 →
      r.state.equity_curve.getLast? = some e1 →
      totalReturnE ((benchCurve p bb b0 e0.1 e1.1).map Prod.snd) = .ok r.benchmark_return ∧
      r.excess_return = r.total_return - r.benchmark_return ∧
      (b0.2 ≠ 0 →
        (bb.map fun dc => (dc.1, dc.2 / b0.2 * p.initial_cash)).head? =
          some (b0.1, p.initial_cash))) ∧
    (∀ (p : Params) (sIn : BState) (u : Bool) (q : ℚ) (sigs : List ℤ) (bars : List Bar)
        (r : RunResult),
      run p sIn u q sigs bars none = .ok r →
      r.benchmark_return = 0 ∧ r.excess_return = 0) := by
  constructor
  · intro p sIn u q sigs bars bb r b0 e0 e1 hrun hb0 he0 he1
    obtain ⟨sl, s2, hsl, hce, hmk⟩ := run_ok_elim hrun
    have hstate : r.state = s2 := (mkMetrics_ok_state hmk).1
    rw [hstate] at he0 he1
    have h := mkMetrics_some_ok hmk hb0 he0 he1
    refine ⟨h.2.2.1, h.2.2.2, ?_⟩
    intro hb02
    rw [List.head?_map, hb0]
    simp [div_self hb02]
  · intro p sIn u q sigs bars r hrun
    obtain ⟨sl, s2, hsl, hce, hmk⟩ := run_ok_elim hrun
    have h := mkMetrics_none_ok hmk
    exact ⟨h.2.2.1, h.2.2.2⟩

/-- C8 witness: an all-HOLD run with a benchmark rising from 200 to 300; the
benchmark curve is rescaled to start at the initial cash 10000, clipped to
the run's dates, its total_return is 50, and excess_return = 0 − 50; the same
run without a benchmark reports 0 and 0. -/
theorem claim_C8_witness :
    (run ⟨10000, 0, 0⟩ (resetState ⟨10000, 0, 0⟩) false 0 [0, 0] [⟨0, 100⟩, ⟨1, 110⟩]
        (some [(0, 200), (1, 300)]) =
      .ok { state := { cash := 10000, position := 0, entry_price := 0, entry_date := none,
                       highest_price := 0, trades := [],
                       equity_curve := [(0, 10000), (1, 10000)] },
            total_return := 0, benchmark_return := 50, excess_return := -50 }) ∧
    (totalReturnE ((benchCurve ⟨10000, 0, 0⟩ [(0, 200), (1, 300)] (0, 200) 0 1).map
        Prod.snd) = .ok (50 : ℚ) ∧
     (-50 : ℚ) = 0 - 50 ∧
     ((200 : ℚ) ≠ 0 →
       ([((0:ℕ), (200:ℚ)), (1, 300)].map fun dc => (dc.1, dc.2 / 200 * 10000)).head? =
         some (0, 10000))) ∧
    (run ⟨10000, 0, 0⟩ (resetState ⟨10000, 0, 0⟩) false 0 [0, 0] [⟨0, 100⟩, ⟨1, 110⟩] none =
      .ok { state := { cash := 10000, position := 0, entry_price := 0, entry_date := none,
                       highest_price := 0, trades := [],
                       equity_curve := [(0, 10000), (1, 10000)] },
            total_return := 0, benchmark_return := 0, excess_return := 0 }) ∧
    (({ state := { cash := 10000, position := 0, entry_price := 0, entry_date := none,
                   highest_price := 0, trades := [],
                   equity_curve := [(0, 10000), (1, 10000)] },
        total_return := 0, benchmark_return := 0, excess_return := 0
        : RunResult }).benchmark_return = 0 ∧
     ({ state := { cash := 10000, position := 0, entry_price := 0, entry_date := none,
                   highest_price := 0, trades := [],
                   equity_curve := [(0, 10000), (1, 10000)] },
        total_return := 0, benchmark_return := 0, excess_return := 0
        : RunResult }).excess_return = 0) := by
  refine ⟨?_, ?_, ?_, ?_⟩
  · norm_num [run, runAfterLoop, runAfterClose, simLoop, step, stepCore, stepHighest,
      preSignal, buy, sell, recordEquity, resetApply, resetState, closeEnd, mkMetrics,
      exceptBind, optStage, totalReturnE, benchCurve, pyInt, List.filter]
  · exact claim_C8_benchmark_handling.1 ⟨10000, 0, 0⟩ (resetState ⟨10000, 0, 0⟩) false 0
      [0, 0] [⟨0, 100⟩, ⟨1, 110⟩] [(0, 200), (1, 300)]
      { state := { cash := 10000, position := 0, entry_price := 0, entry_date := none,
                   highest_price := 0, trades := [],
                   equity_curve := [(0, 10000), (1, 10000)] },
        total_return := 0, benchmark_return := 50, excess_return := -50 }
      (0, 200) (0, 10000) (1, 10000)
      (by norm_num [run, runAfterLoop, runAfterClose, simLoop, step, stepCore, stepHighest,
        preSignal, buy, sell, recordEquity, resetApply, resetState, closeEnd, mkMetrics,
        exceptBind, optStage, totalReturnE, benchCurve, pyInt, List.filter])
      (by rfl) (by rfl) (by rfl)
  · norm_num [run, runAfterLoop, runAfterClose, simLoop, step, stepCore, stepHighest,
      preSignal, buy, sell, recordEquity, resetApply, resetState, closeEnd, mkMetrics,
      exceptBind, optStage, totalReturnE, benchCurve, pyInt, List.filter]
  · exact claim_C8_benchmark_handling.2 ⟨10000, 0, 0⟩ (resetState ⟨10000, 0, 0⟩) false 0
      [0, 0] [⟨0, 100⟩, ⟨1, 110⟩]
      { state := { cash := 10000, position := 0, entry_price := 0, entry_date := none,
                   highest_price := 0, trades := [],
                   equity_curve := [(0, 10000), (1, 10000)] },
        total_return := 0, benchmark_return := 0, excess_return := 0 }
      (by norm_num [run, runAfterLoop, runAfterClose, simLoop, step, stepCore, stepHighest,
        preSignal, buy, sell, recordEquity, resetApply, resetState, closeEnd, mkMetrics,
        exceptBind, optStage, totalReturnE, benchCurve, pyInt, List.filter])

/-- C8 counterexample: with 10% slippage and a bar-0 buy, the equity curve's
first recorded value is 9100, while the rescaled benchmark starts at the
initial cash 10000 — the benchmark is NOT rescaled to start at the same value
as the strategy's equity curve, which is what the claim states. -/
theorem claim_C8_counterexample :
    (run ⟨10000, 0, 1/10⟩ (resetState ⟨10000, 0, 1/10⟩) false 0 [1, 0]
        [⟨0, 100⟩, ⟨1, 100⟩] (some [(0, 100), (1, 100)]) =
      .ok { state := { cash := 8200, position := 0, entry_price := 0, entry_date := none,
                       highest_price := 0,
                       trades := [{ entry_date := some 0, exit_date := 1, entry_price := 110,
                                    exit_price := 90, shares := 90, pnl := -1800,
                                    pnl_pct := -200/11, exit_reason := .end_of_data }],
                       equity_curve := [(0, 9100), (1, 9100)] },
            total_return := 0, benchmark_return := 0, excess_return := 0 }) ∧
    (((benchCurve ⟨10000, 0, 1/10⟩ [(0, 100), (1, 100)] (0, 100) 0 1).map Prod.snd).head? =
      some (10000 : ℚ)) ∧
    (([(0, (9100:ℚ)), (1, 9100)].map Prod.snd).head? = some (9100 : ℚ)) ∧
    (10000 : ℚ) ≠ 9100 := by
  refine ⟨?_, ?_, by rfl, by norm_num⟩
  · norm_num [run, runAfterLoop, runAfterClose, simLoop, step, stepCore, stepHighest,
      preSignal, buy, sell, recordEquity, resetApply, resetState, closeEnd, mkMetrics,
      exceptBind, optStage, totalReturnE, benchCurve, pyInt, List.filter]
  · norm_num [benchCurve, List.filter]
